import Mathlib

set_option maxRecDepth 8192

namespace TomTom

/-! # Shallow embedding of `validate_raw.py`

A verification development for the raw-data validation subsystem of the
TomTom trip-count pipeline (`validate_raw.py`).  File contents are modelled
as byte lists (`List Nat`), parsed JSON documents as an inductive `JVal`,
the file system as explicit listings, and the side effects of orphan
deletion as an explicit event trace in the returned result.  Python strings
are modelled as Lean strings; lower-casing is ASCII (`Char.toLower`), which
agrees with Python `str.lower()` on the ASCII data this pipeline handles. -/

/-- ASCII lower-casing of a string, modelling Python `str.lower()`. -/
def lowerStr (s : String) : String := String.mk (s.data.map Char.toLower)

/-! ## SHA-256 (FIPS 180-4), modelling `hashlib.sha256`

`file_hash` in the source streams a file through `hashlib.sha256` and
returns the hex digest; the digest is a pure function of the byte content,
so it is modelled as SHA-256 of the content byte list. -/

/-- Truncation to a 32-bit word. -/
def w32 (n : Nat) : Nat := n % 4294967296

/-- 32-bit right rotation. -/
def rotr32 (r x : Nat) : Nat := w32 ((x >>> r) ||| (x <<< (32 - r)))

/-- SHA-256 `Ch` function (`¬x` taken within 32 bits). -/
def ch32 (x y z : Nat) : Nat := (x &&& y) ^^^ ((x ^^^ 4294967295) &&& z)

/-- SHA-256 `Maj` function. -/
def maj32 (x y z : Nat) : Nat := (x &&& y) ^^^ (x &&& z) ^^^ (y &&& z)

/-- SHA-256 Σ₀. -/
def bsig0 (x : Nat) : Nat := rotr32 2 x ^^^ rotr32 13 x ^^^ rotr32 22 x

/-- SHA-256 Σ₁. -/
def bsig1 (x : Nat) : Nat := rotr32 6 x ^^^ rotr32 11 x ^^^ rotr32 25 x

/-- SHA-256 σ₀. -/
def ssig0 (x : Nat) : Nat := rotr32 7 x ^^^ rotr32 18 x ^^^ (x >>> 3)

/-- SHA-256 σ₁. -/
def ssig1 (x : Nat) : Nat := rotr32 17 x ^^^ rotr32 19 x ^^^ (x >>> 10)

/-- The 64 SHA-256 round constants. -/
def shaK : List Nat :=
  [1116352408, 1899447441, 3049323471, 3921009573, 961987163,
   1508970993, 2453635748, 2870763221, 3624381080, 310598401,
   607225278, 1426881987, 1925078388, 2162078206, 2614888103,
   3248222580, 3835390401, 4022224774, 264347078, 604807628,
   770255983, 1249150122, 1555081692, 1996064986, 2554220882,
   2821834349, 2952996808, 3210313671, 3336571891, 3584528711,
   113926993, 338241895, 666307205, 773529912, 1294757372,
   1396182291, 1695183700, 1986661051, 2177026350, 2456956037,
   2730485921, 2820302411, 3259730800, 3345764771, 3516065817,
   3600352804, 4094571909, 275423344, 430227734, 506948616,
   659060556, 883997877, 958139571, 1322822218, 1537002063,
   1747873779, 1955562222, 2024104815, 2227730452, 2361852424,
   2428436474, 2756734187, 3204031479, 3329325298]

/-- The SHA-256 initial hash value. -/
def shaH0 : List Nat :=
  [1779033703, 3144134277, 1013904242, 2773480762,
   1359893119, 2600822924, 528734635, 1541459225]

/-- `beBytes k v`: the `k` low-order bytes of `v`, big-endian. -/
def beBytes : Nat → Nat → List Nat
  | 0, _ => []
  | k + 1, v => beBytes k (v / 256) ++ [v % 256]

/-- SHA-256 padding: append `0x80`, zeros to 56 mod 64, then the bit length
as an 8-byte big-endian integer. -/
def padMessage (msg : List Nat) : List Nat :=
  msg ++ 128 :: List.replicate ((119 - msg.length % 64) % 64) 0
      ++ beBytes 8 (msg.length * 8)

/-- Regroup a byte list into big-endian 32-bit words. -/
def toWords32 : List Nat → List Nat
  | b0 :: b1 :: b2 :: b3 :: rest =>
      (((b0 * 256 + b1) * 256 + b2) * 256 + b3) :: toWords32 rest
  | _ => []

/-- Split a word list into 16-word blocks (a padded message is always a
whole number of blocks). -/
def toBlocks : List Nat → List (List Nat)
  | w0 :: w1 :: w2 :: w3 :: w4 :: w5 :: w6 :: w7 ::
    w8 :: w9 :: w10 :: w11 :: w12 :: w13 :: w14 :: w15 :: rest =>
      [w0, w1, w2, w3, w4, w5, w6, w7, w8, w9, w10, w11, w12, w13, w14, w15]
        :: toBlocks rest
  | _ => []

/-- Extend a 16-word message block by `n` further schedule words. -/
def extendSchedule : Nat → List Nat → List Nat
  | 0, w => w
  | n + 1, w =>
      extendSchedule n (w ++ [w32 (ssig1 (w.getD (w.length - 2) 0)
        + w.getD (w.length - 7) 0 + ssig0 (w.getD (w.length - 15) 0)
        + w.getD (w.length - 16) 0)])

/-- The eight 32-bit working variables of the SHA-256 compression loop. -/
structure Sha256State where
  a : Nat
  b : Nat
  c : Nat
  d : Nat
  e : Nat
  f : Nat
  g : Nat
  h : Nat
deriving DecidableEq, Repr

/-- One round of the SHA-256 compression function. -/
def shaRound (s : Sha256State) (kw : Nat × Nat) : Sha256State :=
  let t1 := w32 (s.h + bsig1 s.e + ch32 s.e s.f s.g + kw.1 + kw.2)
  let t2 := w32 (bsig0 s.a + maj32 s.a s.b s.c)
  ⟨w32 (t1 + t2), s.a, s.b, s.c, w32 (s.d + t1), s.e, s.f, s.g⟩

/-- Compress one 16-word block into the running 8-word hash value. -/
def compressBlock (hs : List Nat) (block : List Nat) : List Nat :=
  let w := extendSchedule 48 block
  let s0 : Sha256State :=
    ⟨hs.getD 0 0, hs.getD 1 0, hs.getD 2 0, hs.getD 3 0,
     hs.getD 4 0, hs.getD 5 0, hs.getD 6 0, hs.getD 7 0⟩
  let s := (shaK.zip w).foldl shaRound s0
  [w32 (hs.getD 0 0 + s.a), w32 (hs.getD 1 0 + s.b), w32 (hs.getD 2 0 + s.c),
   w32 (hs.getD 3 0 + s.d), w32 (hs.getD 4 0 + s.e), w32 (hs.getD 5 0 + s.f),
   w32 (hs.getD 6 0 + s.g), w32 (hs.getD 7 0 + s.h)]

/-- SHA-256 of a byte list: eight 32-bit hash words. -/
def sha256 (msg : List Nat) : List Nat :=
  (toBlocks (toWords32 (padMessage msg))).foldl compressBlock shaH0

/-- Lower-case hex digit for a nibble. -/
def hexChar (n : Nat) : Char :=
  if n < 10 then Char.ofNat (48 + n) else Char.ofNat (87 + n)

/-- Eight hex characters of a 32-bit word, most significant nibble first. -/
def hexWord32 (w : Nat) : List Char :=
  [hexChar (w / 268435456 % 16), hexChar (w / 16777216 % 16),
   hexChar (w / 1048576 % 16), hexChar (w / 65536 % 16),
   hexChar (w / 4096 % 16), hexChar (w / 256 % 16),
   hexChar (w / 16 % 16), hexChar (w % 16)]

/-- Hex digest string of a word list, modelling `hexdigest()`. -/
def hexDigest (ws : List Nat) : String := String.mk (ws.map hexWord32).flatten

/-- `file_hash`: SHA-256 hex digest of a file's byte content
(`validate_raw.py`, lines 60–66; the chunked read there computes the same
digest of the same bytes). -/
def file_hash (content : List Nat) : String := hexDigest (sha256 content)

/-! ## JSON documents

Parsed JSON values, as produced by `json.load`.  Numbers are modelled as
integers (no claim depends on float values); objects are key/value lists. -/

/-- A parsed JSON value. -/
inductive JVal where
  | null
  | bool (b : Bool)
  | num (n : Int)
  | str (s : String)
  | arr (elems : List JVal)
  | obj (fields : List (String × JVal))

mutual

/-- Python-style `repr` of a JSON value (used only inside the
schema-mismatch error message, whose exact text is not contractual). -/
def pyRepr : JVal → String
  | .null => "None"
  | .bool true => "True"
  | .bool false => "False"
  | .num n => toString n
  | .str s => "\x27" ++ s ++ "\x27"
  | .arr xs => "[" ++ String.intercalate ", " (pyReprList xs) ++ "]"
  | .obj kvs => "\x7b" ++ String.intercalate ", " (pyReprObj kvs) ++ "\x7d"

/-- `repr` of each element of a JSON array. -/
def pyReprList : List JVal → List String
  | [] => []
  | x :: xs => pyRepr x :: pyReprList xs

/-- `repr` of each key/value pair of a JSON object. -/
def pyReprObj : List (String × JVal) → List String
  | [] => []
  | (k, v) :: kvs => ("\x27" ++ k ++ "\x27: " ++ pyRepr v) :: pyReprObj kvs

end

mutual

/-- Decidable equality on JSON values (written by hand: `deriving` does not
handle this nested inductive). -/
def jvalDecEq : (a b : JVal) → Decidable (a = b)
  | .null, .null => isTrue rfl
  | .null, .bool _ => isFalse (fun h => JVal.noConfusion h)
  | .null, .num _ => isFalse (fun h => JVal.noConfusion h)
  | .null, .str _ => isFalse (fun h => JVal.noConfusion h)
  | .null, .arr _ => isFalse (fun h => JVal.noConfusion h)
  | .null, .obj _ => isFalse (fun h => JVal.noConfusion h)
  | .bool _, .null => isFalse (fun h => JVal.noConfusion h)
  | .bool a, .bool b =>
    match Bool.decEq a b with
    | isTrue h => isTrue (by rw [h])
    | isFalse h => isFalse (by intro hh; injection hh with h2; exact h h2)
  | .bool _, .num _ => isFalse (fun h => JVal.noConfusion h)
  | .bool _, .str _ => isFalse (fun h => JVal.noConfusion h)
  | .bool _, .arr _ => isFalse (fun h => JVal.noConfusion h)
  | .bool _, .obj _ => isFalse (fun h => JVal.noConfusion h)
  | .num _, .null => isFalse (fun h => JVal.noConfusion h)
  | .num _, .bool _ => isFalse (fun h => JVal.noConfusion h)
  | .num a, .num b =>
    match Int.decEq a b with
    | isTrue h => isTrue (by rw [h])
    | isFalse h => isFalse (by intro hh; injection hh with h2; exact h h2)
  | .num _, .str _ => isFalse (fun h => JVal.noConfusion h)
  | .num _, .arr _ => isFalse (fun h => JVal.noConfusion h)
  | .num _, .obj _ => isFalse (fun h => JVal.noConfusion h)
  | .str _, .null => isFalse (fun h => JVal.noConfusion h)
  | .str _, .bool _ => isFalse (fun h => JVal.noConfusion h)
  | .str _, .num _ => isFalse (fun h => JVal.noConfusion h)
  | .str a, .str b =>
    match String.decEq a b with
    | isTrue h => isTrue (by rw [h])
    | isFalse h => isFalse (by intro hh; injection hh with h2; exact h h2)
  | .str _, .arr _ => isFalse (fun h => JVal.noConfusion h)
  | .str _, .obj _ => isFalse (fun h => JVal.noConfusion h)
  | .arr _, .null => isFalse (fun h => JVal.noConfusion h)
  | .arr _, .bool _ => isFalse (fun h => JVal.noConfusion h)
  | .arr _, .num _ => isFalse (fun h => JVal.noConfusion h)
  | .arr _, .str _ => isFalse (fun h => JVal.noConfusion h)
  | .arr xs, .arr ys =>
    match jvalListDecEq xs ys with
    | isTrue h => isTrue (by rw [h])
    | isFalse h => isFalse (by intro hh; injection hh with h2; exact h h2)
  | .arr _, .obj _ => isFalse (fun h => JVal.noConfusion h)
  | .obj _, .null => isFalse (fun h => JVal.noConfusion h)
  | .obj _, .bool _ => isFalse (fun h => JVal.noConfusion h)
  | .obj _, .num _ => isFalse (fun h => JVal.noConfusion h)
  | .obj _, .str _ => isFalse (fun h => JVal.noConfusion h)
  | .obj _, .arr _ => isFalse (fun h => JVal.noConfusion h)
  | .obj xs, .obj ys =>
    match jvalObjDecEq xs ys with
    | isTrue h => isTrue (by rw [h])
    | isFalse h => isFalse (by intro hh; injection hh with h2; exact h h2)

/-- Decidable equality on lists of JSON values. -/
def jvalListDecEq : (xs ys : List JVal) → Decidable (xs = ys)
  | [], [] => isTrue rfl
  | [], _ :: _ => isFalse (fun h => List.noConfusion h)
  | _ :: _, [] => isFalse (fun h => List.noConfusion h)
  | x :: xs, y :: ys =>
    match jvalDecEq x y with
    | isTrue h1 =>
      match jvalListDecEq xs ys with
      | isTrue h2 => isTrue (by rw [h1, h2])
      | isFalse h2 => isFalse (by intro hh; injection hh with ha hb; exact h2 hb)
    | isFalse h1 => isFalse (by intro hh; injection hh with ha hb; exact h1 ha)

/-- Decidable equality on JSON object field lists. -/
def jvalObjDecEq : (xs ys : List (String × JVal)) → Decidable (xs = ys)
  | [], [] => isTrue rfl
  | [], _ :: _ => isFalse (fun h => List.noConfusion h)
  | _ :: _, [] => isFalse (fun h => List.noConfusion h)
  | (k1, v1) :: xs, (k2, v2) :: ys =>
    match String.decEq k1 k2 with
    | isTrue hk =>
      match jvalDecEq v1 v2 with
      | isTrue hv =>
        match jvalObjDecEq xs ys with
        | isTrue ht => isTrue (by rw [hk, hv, ht])
        | isFalse ht => isFalse (by intro hh; injection hh with ha hb; exact ht hb)
      | isFalse hv => isFalse (by
          intro hh; injection hh with ha hb; injection ha with h1 h2; exact hv h2)
    | isFalse hk => isFalse (by
        intro hh; injection hh with ha hb; injection ha with h1 h2; exact hk h1)

end

instance : DecidableEq JVal := jvalDecEq

/-- Key lookup in a JSON object, modelling Python dict indexing on objects
produced by `json.load` (for duplicate keys in the source text the last
occurrence wins, as in `json.load`). -/
def lookupKey (kvs : List (String × JVal)) (k : String) : Option JVal :=
  (kvs.reverse.find? (fun kv => kv.1 == k)).map (fun kv => kv.2)

/-- `EXPECTED_FIELDS` (`validate_raw.py`, lines 43–44). -/
def EXPECTED_FIELDS : List String :=
  ["id", "parentid", "trips", "frc", "geometry",
   "processingfailures", "privacytrims"]

/-- `f.lower() if isinstance(f, str) else f` (`validate_raw.py`, line 85). -/
def lowerField : JVal → JVal
  | .str s => .str (lowerStr s)
  | v => v

/-- The per-row loop of `validate_structure` (`validate_raw.py`,
lines 92–99): first row that is not an array, or whose length differs from
`expectedLen`, produces the error; `none` when all rows pass. -/
def validateNodes (name : String) (expectedLen : Nat) : Nat → List JVal → Option String
  | _, [] => none
  | i, node :: rest =>
    match node with
    | .arr elems =>
      if elems.length = expectedLen then validateNodes name expectedLen (i + 1) rest
      else some (name ++ ": node[" ++ toString i ++ "] has " ++ toString elems.length
        ++ " elements, expected " ++ toString expectedLen)
    | _ => some (name ++ ": node[" ++ toString i ++ "] is not an array")

/-- `validate_structure` (`validate_raw.py`, lines 69–100).  `name` is
`path.name`. -/
def validate_structure (doc : JVal) (name : String) : Option String :=
  match doc with
  | .obj kvs =>
    match lookupKey kvs "nodeFormat" with
    | none => some (name ++ ": missing required key \x27nodeFormat\x27")
    | some nf =>
      match lookupKey kvs "nodes" with
      | none => some (name ++ ": missing required key \x27nodes\x27")
      | some nodes =>
        match nf with
        | .arr nfl =>
          match nodes with
          | .arr nodesl =>
            if nfl.map lowerField = EXPECTED_FIELDS.map JVal.str then
              validateNodes name nfl.length 0 nodesl
            else
              some (name ++ ": nodeFormat fields do not match expected schema (got "
                ++ pyRepr (.arr nfl) ++ ")")
          | _ => some (name ++ ": \x27nodes\x27 is not an array")
        | _ => some (name ++ ": \x27nodeFormat\x27 is not an array")
  | _ => some (name ++ ": top-level value is not a JSON object")

/-! ## Spec-side structural validation (§4.2 of the spec)

A second, clearly separated rendition of the structural checks, written
from the spec's ordered check list, for the refinement claim C3. -/

/-- The identity of the first failing structural check (spec §4.2). -/
inductive StructureFailure where
  | notObject
  | missingNodeFormat
  | missingNodes
  | nodeFormatNotArray
  | nodesNotArray
  | schemaMismatch (got : List JVal)
  | rowNotArray (i : Nat)
  | rowArity (i got expected : Nat)
deriving DecidableEq

/-- Spec §4.2, check 7: the first row (from index `i`) that is not a
sequence or does not have exactly `m` elements. -/
def specRowFailure (m : Nat) : Nat → List JVal → Option StructureFailure
  | _, [] => none
  | i, .arr elems :: rest =>
    if elems.length = m then specRowFailure m (i + 1) rest
    else some (.rowArity i elems.length m)
  | i, _ :: _ => some (.rowNotArray i)

/-- Spec §4.2: the checks in the listed fixed order, short-circuiting at
the first failure; `none` only if every check passes. -/
def specFirstFailure (doc : JVal) : Option StructureFailure :=
  match doc with
  | .obj kvs =>
    match lookupKey kvs "nodeFormat" with
    | none => some .missingNodeFormat
    | some nf =>
      match lookupKey kvs "nodes" with
      | none => some .missingNodes
      | some nodes =>
        match nf with
        | .arr nfl =>
          match nodes with
          | .arr nodesl =>
            if nfl.map lowerField = EXPECTED_FIELDS.map JVal.str then
              specRowFailure nfl.length 0 nodesl
            else some (.schemaMismatch nfl)
          | _ => some .nodesNotArray
        | _ => some .nodeFormatNotArray
  | _ => some .notObject

/-- The error message the source emits for each failing check; every
message names the offending key, or the offending row index. -/
def renderFailure (name : String) : StructureFailure → String
  | .notObject => name ++ ": top-level value is not a JSON object"
  | .missingNodeFormat => name ++ ": missing required key \x27nodeFormat\x27"
  | .missingNodes => name ++ ": missing required key \x27nodes\x27"
  | .nodeFormatNotArray => name ++ ": \x27nodeFormat\x27 is not an array"
  | .nodesNotArray => name ++ ": \x27nodes\x27 is not an array"
  | .schemaMismatch got => name ++ ": nodeFormat fields do not match expected schema (got "
      ++ pyRepr (.arr got) ++ ")"
  | .rowNotArray i => name ++ ": node[" ++ toString i ++ "] is not an array"
  | .rowArity i got expected => name ++ ": node[" ++ toString i ++ "] has " ++ toString got
      ++ " elements, expected " ++ toString expected

/-- Declarative validity of a raw document (spec §3, RawDocument
invariant): both required keys exist, both are sequences, `nodeFormat`
case-folds to the canonical schema, and every row is a sequence of exactly
`len(nodeFormat)` elements. -/
def ValidStructure (doc : JVal) : Prop :=
  ∃ kvs nfl nodesl, doc = JVal.obj kvs ∧
    lookupKey kvs "nodeFormat" = some (.arr nfl) ∧
    lookupKey kvs "nodes" = some (.arr nodesl) ∧
    nfl.map lowerField = EXPECTED_FIELDS.map JVal.str ∧
    ∀ node ∈ nodesl, ∃ elems, node = JVal.arr elems ∧ elems.length = nfl.length

/-! ## Filename parsing (`FILENAME_RE` and `parse_filename`)

`FILENAME_RE` is `^(?P<device>\d+)_(?P<direction>incoming|outgoing)_(?P<x>\d+)_(?P<y>\d+)\.json$`
with `re.IGNORECASE`.  `re.IGNORECASE` applies to every literal of the
pattern — the direction keywords *and* the `.json` suffix — and Python's
`$` also matches just before one trailing newline at the end of the
string, so `FILENAME_RE.match` accepts e.g. `.JSON` and an optional
final `'\n'`.  The model's alphabet is ASCII: `Char.isDigit` is `[0-9]`
and case folding is `Char.toLower`, which agree exactly with Python's
`\d` and `re.IGNORECASE` on ASCII names; Python additionally accepts
non-ASCII Unicode decimal digits for `\d` and a few non-ASCII case
equivalences (dotless ı, long ſ), which are outside this model, so the
parser theorems are scoped to ASCII names. -/

/-- The parse result of a well-formed file name. -/
structure ParsedFilename where
  device : String
  direction : String
  x : String
  y : String
deriving DecidableEq, Repr

/-- `"incoming"` as a character list. -/
def incomingChars : List Char := ['i', 'n', 'c', 'o', 'm', 'i', 'n', 'g']

/-- `"outgoing"` as a character list. -/
def outgoingChars : List Char := ['o', 'u', 't', 'g', 'o', 'i', 'n', 'g']

/-- `".json"` as a character list. -/
def dotJson : List Char := ['.', 'j', 's', 'o', 'n']

/-- `".json\n"` as a character list (`$` accepts one trailing newline). -/
def dotJsonNl : List Char := ['.', 'j', 's', 'o', 'n', '\n']

/-- Deterministic matcher for `FILENAME_RE` over a character list.  The
regex is deterministic here: `\d+` is followed by `_` (not a digit), the
two direction alternatives are distinct 8-character words, so greedy
matching without backtracking is exact.  Both the direction and the
`.json` suffix are matched case-insensitively (`re.IGNORECASE` covers
every literal of the pattern), and `$` accepts one trailing newline. -/
def parseChars (l : List Char) : Option ParsedFilename :=
  let dev := l.takeWhile Char.isDigit
  let r1 := l.dropWhile Char.isDigit
  if dev.isEmpty then none else
  match r1 with
  | [] => none
  | c1 :: r2 =>
    if c1 = '_' then
      let dir := (r2.take 8).map Char.toLower
      if dir = incomingChars ∨ dir = outgoingChars then
        match r2.drop 8 with
        | [] => none
        | c2 :: r3 =>
          if c2 = '_' then
            let xs := r3.takeWhile Char.isDigit
            let r4 := r3.dropWhile Char.isDigit
            if xs.isEmpty then none else
            match r4 with
            | [] => none
            | c3 :: r5 =>
              if c3 = '_' then
                let ys := r5.takeWhile Char.isDigit
                let r6 := r5.dropWhile Char.isDigit
                if ys.isEmpty then none else
                if r6.map Char.toLower = dotJson ∨ r6.map Char.toLower = dotJsonNl then
                  some ⟨String.mk dev, String.mk dir, String.mk xs, String.mk ys⟩
                else none
              else none
          else none
      else none
    else none

/-- `parse_filename` (`validate_raw.py`, lines 47–57): match against
`FILENAME_RE` (case-insensitive, including the `.json` suffix; exact on
ASCII names — see the section comment for the Unicode caveats); on
success return the four captures, with `direction` lower-cased;
otherwise `None`. -/
def parse_filename (name : String) : Option ParsedFilename :=
  parseChars name.data

/-- Spec-side (§4.1): `name` decomposes, anchored at both ends, as
digits⁺ `_` (`incoming`|`outgoing`, case-insensitive) `_` digits⁺ `_`
digits⁺ followed by `tail`, and `p` holds the four captured substrings
with the direction case-folded.  The claimed pattern is the instance
`tail = dotJson`. -/
def SpecDecompAt (tail : List Char) (name : String) (p : ParsedFilename) : Prop :=
  ∃ d dir x y : List Char,
    name.data = d ++ '_' :: (dir ++ '_' :: (x ++ '_' :: (y ++ tail))) ∧
    d ≠ [] ∧ d.all Char.isDigit ∧
    x ≠ [] ∧ x.all Char.isDigit ∧
    y ≠ [] ∧ y.all Char.isDigit ∧
    (dir.map Char.toLower = incomingChars ∨ dir.map Char.toLower = outgoingChars) ∧
    p = ⟨String.mk d, String.mk (dir.map Char.toLower), String.mk x, String.mk y⟩

/-- Shape of every successful parse result: digit captures nonempty,
direction normalized to one of the two keywords. -/
def ParsedShape (p : ParsedFilename) : Prop :=
  p.device.data ≠ [] ∧ p.device.data.all Char.isDigit ∧
  (p.direction = "incoming" ∨ p.direction = "outgoing") ∧
  p.x.data ≠ [] ∧ p.x.data.all Char.isDigit ∧
  p.y.data ≠ [] ∧ p.y.data.all Char.isDigit

/-! ## The orchestrator `validate_raw`

A raw file is modelled by its name, its byte content, and the result of
`json.load` on it (`.error exc` models an unreadable or malformed file,
carrying the exception text).  Directories are explicit listings; the
side effects of orphan deletion are returned as the `deleted` list and as
an ordered event `trace`. -/

/-- One file of the raw directory. -/
structure RawFile where
  name : String
  content : List Nat
  doc : Except String JVal

instance : DecidableEq (Except String JVal) := fun a b =>
  match a, b with
  | .error x, .error y =>
    match String.decEq x y with
    | isTrue h => isTrue (by rw [h])
    | isFalse h => isFalse (by intro hh; injection hh with h2; exact h h2)
  | .error _, .ok _ => isFalse (fun h => Except.noConfusion h)
  | .ok _, .error _ => isFalse (fun h => Except.noConfusion h)
  | .ok x, .ok y =>
    match jvalDecEq x y with
    | isTrue h => isTrue (by rw [h])
    | isFalse h => isFalse (by intro hh; injection hh with h2; exact h h2)

instance : DecidableEq RawFile := fun a b =>
  match a, b with
  | ⟨n1, c1, d1⟩, ⟨n2, c2, d2⟩ =>
    match decEq n1 n2, decEq c1 c2, decEq d1 d2 with
    | isTrue h1, isTrue h2, isTrue h3 => isTrue (by rw [h1, h2, h3])
    | isFalse h1, _, _ => isFalse (by intro hh; injection hh; exact h1 (by assumption))
    | _, isFalse h2, _ => isFalse (by intro hh; injection hh; exact h2 (by assumption))
    | _, _, isFalse h3 => isFalse (by intro hh; injection hh; exact h3 (by assumption))

/-- Stable insertion of one element into a sorted list. -/
def insertLe {α : Type} (le : α → α → Bool) (f : α) : List α → List α
  | [] => [f]
  | g :: rest => if le f g then f :: g :: rest else g :: insertLe le f rest

/-- Stable insertion sort, modelling Python `sorted` (deterministic name
order). -/
def sortLe {α : Type} (le : α → α → Bool) : List α → List α
  | [] => []
  | f :: rest => insertLe le f (sortLe le rest)

/-- Code-point lexicographic order on character lists, modelling Python
string comparison. -/
def lexLe : List Char → List Char → Bool
  | [], _ => true
  | _ :: _, [] => false
  | a :: as, b :: bs =>
    if a.toNat < b.toNat then true
    else if b.toNat < a.toNat then false
    else lexLe as bs

/-- Python string `<=` (code-point lexicographic). -/
def strLe (a b : String) : Bool := lexLe a.data b.data

/-- `sorted(...)` over files, by name. -/
def sortByName (files : List RawFile) : List RawFile :=
  sortLe (fun a b => strLe a.name b.name) files

/-- `sorted(...)` over names. -/
def sortNames (names : List String) : List String :=
  sortLe strLe names

/-- `fnmatch` of the glob pattern `*.json`: the name ends with `.json`
(`pathlib` glob matching is case-sensitive and does not special-case
leading dots). -/
def matchesJsonGlob (name : String) : Bool :=
  decide (name.data.drop (name.data.length - 5) = dotJson)

/-- `raw_dir.glob("*.json")`, sorted (`validate_raw.py`, line 129):
the directory entries whose name ends in `.json`, in name order. -/
def jsonFilesOf (rawListing : List RawFile) : List RawFile :=
  sortByName (rawListing.filter (fun f => matchesJsonGlob f.name))

/-- The bad-filename-pattern warning (`validate_raw.py`, lines 143–146). -/
def badPatternWarn (name : String) : String :=
  name ++ ": filename does not match expected pattern \x7bdeviceId\x7d_\x7bdirection\x7d_\x7bx\x7d_\x7by\x7d.json"

/-- The unreadable/malformed-JSON error (`validate_raw.py`, line 153). -/
def readErrMsg (name exc : String) : String :=
  name ++ ": cannot read/parse — " ++ exc

/-- Accumulated result of pass 1 (`validate_raw.py`, lines 136–167). -/
structure Pass1Out where
  errors : List String
  warnings : List String
  bad_pattern : Nat
  bad_json : Nat
  bad_structure : Nat
  valid : List RawFile
  parsed : List (RawFile × ParsedFilename)
deriving DecidableEq

/-- Pass 1 (`validate_raw.py`, lines 140–165): for each file in order,
filename-pattern warning (non-blocking), then JSON readability (error and
skip on failure), then structural validation (error and skip on failure);
survivors enter `valid` and, if their name parsed, `parsed`. -/
def pass1 : List RawFile → Pass1Out
  | [] => ⟨[], [], 0, 0, 0, [], []⟩
  | fp :: rest =>
    let r := pass1 rest
    let parts := parse_filename fp.name
    let w := if parts.isNone then [badPatternWarn fp.name] else []
    let bp := if parts.isNone then 1 else 0
    match fp.doc with
    | .error exc =>
      ⟨readErrMsg fp.name exc :: r.errors, w ++ r.warnings, bp + r.bad_pattern,
       r.bad_json + 1, r.bad_structure, r.valid, r.parsed⟩
    | .ok doc =>
      match validate_structure doc fp.name with
      | some err =>
        ⟨err :: r.errors, w ++ r.warnings, bp + r.bad_pattern,
         r.bad_json, r.bad_structure + 1, r.valid, r.parsed⟩
      | none =>
        match parts with
        | some p =>
          ⟨r.errors, w ++ r.warnings, bp + r.bad_pattern,
           r.bad_json, r.bad_structure, fp :: r.valid, (fp, p) :: r.parsed⟩
        | none =>
          ⟨r.errors, w ++ r.warnings, bp + r.bad_pattern,
           r.bad_json, r.bad_structure, fp :: r.valid, r.parsed⟩

/-- Keyed grouping, modelling a Python dict built with
`setdefault(key, []).append(x)`: keys in first-occurrence order, members
in encounter order. -/
def groupBy {κ α : Type} [DecidableEq κ] (key : α → κ) : List α → List (κ × List α)
  | [] => []
  | f :: rest =>
    (key f, f :: rest.filter (fun g => decide (key g = key f))) ::
      groupBy key (rest.filter (fun g => decide (key g ≠ key f)))
termination_by l => l.length
decreasing_by
  simp only [List.length_cons]
  exact Nat.lt_succ_of_le (List.length_filter_le _ _)

/-- `", ".join(p.name for p in paths)`. -/
def namesJoined (files : List RawFile) : String :=
  String.intercalate ", " (files.map (fun f => f.name))

/-- The content-duplicate error for one cluster (`validate_raw.py`,
lines 177–180). -/
def hashDupeError (g : String × List RawFile) : String :=
  "Content-hash duplicate: the following files are identical: " ++ namesJoined g.2

/-- The slot-collision error for one colliding group (`validate_raw.py`,
lines 191–194). -/
def slotCollisionError (g : String × List RawFile) : String :=
  "Slot collision for [" ++ g.1 ++ "]: " ++ namesJoined g.2

/-- The reporting loop over the groups of one grouping pass
(`validate_raw.py`, lines 175–181 and 189–195): one error per group with
more than one member. -/
def clusterErrors (mk : String × List RawFile → String) :
    List (String × List RawFile) → List String
  | [] => []
  | g :: rest =>
    if 1 < g.2.length then mk g :: clusterErrors mk rest
    else clusterErrors mk rest

/-- The counter of the same loop: `(group size − 1)` per group with more
than one member. -/
def clusterExtra : List (String × List RawFile) → Nat
  | [] => 0
  | g :: rest => (if 1 < g.2.length then g.2.length - 1 else 0) + clusterExtra rest

/-- `slot_key` (`validate_raw.py`, line 186):
`f"{device}_{direction}_{x}_{y}"` of the parsed, normalized fields. -/
def slot_key (p : ParsedFilename) : String :=
  p.device ++ "_" ++ p.direction ++ "_" ++ p.x ++ "_" ++ p.y

/-- Pass 3 grouping (`validate_raw.py`, lines 184–187): files whose name
parsed, grouped by normalized slot key. -/
def slotGroups (parsed : List (RawFile × ParsedFilename)) : List (String × List RawFile) :=
  (groupBy (fun pr => slot_key pr.2) parsed).map (fun g => (g.1, g.2.map (fun pr => pr.1)))

/-- A file-system event of the orphan pass, in program order. -/
inductive OrphanEvent where
  | identified (name : String)
  | deleted (name : String)
deriving DecidableEq, Repr

/-- The output directory as seen by `validate_raw`. -/
structure OutputDir where
  isDir : Bool
  dirName : String
  listing : List String
deriving DecidableEq, Repr

/-- Accumulated result of the orphan pass. -/
structure OrphanOut where
  warnings : List String
  orphans : Nat
  deleted : List String
  orphans_deleted : Nat
  trace : List OrphanEvent
deriving DecidableEq

/-- The orphan warning (`validate_raw.py`, line 202). -/
def orphanWarn (dirName name : String) : String :=
  "Orphan in " ++ dirName ++ "/: " ++ name

/-- The loop body of pass 4 (`validate_raw.py`, lines 200–206): for each
output file name in order, if absent from the raw-name set, warn, count,
and — when deletion is enabled — unlink immediately and count the
deletion.  The `trace` records the identification and unlink events in
program order. -/
def orphanLoop (rawNames : List String) (dirName : String) (del : Bool) :
    List String → OrphanOut
  | [] => ⟨[], 0, [], 0, []⟩
  | n :: rest =>
    let r := orphanLoop rawNames dirName del rest
    if n ∈ rawNames then r
    else if del then
      ⟨orphanWarn dirName n :: r.warnings, r.orphans + 1, n :: r.deleted,
       r.orphans_deleted + 1, .identified n :: .deleted n :: r.trace⟩
    else
      ⟨orphanWarn dirName n :: r.warnings, r.orphans + 1, r.deleted,
       r.orphans_deleted, .identified n :: r.trace⟩

/-- Pass 4 (`validate_raw.py`, lines 197–206): iterate over
`sorted(output_dir.glob("*.json"))` — a directory listing fully
materialized before the loop runs. -/
def orphanPass (rawNames : List String) (out : OutputDir) (del : Bool) : OrphanOut :=
  orphanLoop rawNames out.dirName del
    (sortNames (out.listing.filter matchesJsonGlob))

/-- The `stats` counters (`validate_raw.py`, lines 117–127). -/
structure Stats where
  total_files : Nat
  valid_files : Nat
  bad_pattern : Nat
  bad_json : Nat
  bad_structure : Nat
  hash_dupes : Nat
  slot_collisions : Nat
  orphans : Nat
  orphans_deleted : Nat
deriving DecidableEq, Repr

/-- The result of one `validate_raw` run: the returned
`(errors, warnings, stats)` plus the modelled file-system effects
(`deleted`, `trace`). -/
structure RunResult where
  errors : List String
  warnings : List String
  stats : Stats
  deleted : List String
  trace : List OrphanEvent
deriving DecidableEq

/-- The empty-directory warning (`validate_raw.py`, line 133). -/
def noFilesWarn (rawDirName : String) : String :=
  "No *.json files found in " ++ rawDirName

/-- `validate_raw` (`validate_raw.py`, lines 103–208). -/
def validate_raw (rawDirName : String) (rawListing : List RawFile)
    (output : Option OutputDir) (delete_orphans : Bool) : RunResult :=
  let json_files := jsonFilesOf rawListing
  if json_files.isEmpty then
    { errors := [], warnings := [noFilesWarn rawDirName],
      stats := ⟨json_files.length, 0, 0, 0, 0, 0, 0, 0, 0⟩,
      deleted := [], trace := [] }
  else
    let p1 := pass1 json_files
    let hgroups := groupBy (fun f => file_hash f.content) p1.valid
    let sgroups := slotGroups p1.parsed
    let orph : OrphanOut :=
      match output with
      | some o =>
        if o.isDir then orphanPass (json_files.map (fun f : RawFile => f.name)) o delete_orphans
        else ⟨[], 0, [], 0, []⟩
      | none => ⟨[], 0, [], 0, []⟩
    { errors := p1.errors ++ clusterErrors hashDupeError hgroups
        ++ clusterErrors slotCollisionError sgroups,
      warnings := p1.warnings ++ orph.warnings,
      stats := ⟨json_files.length, p1.valid.length, p1.bad_pattern, p1.bad_json,
                p1.bad_structure, clusterExtra hgroups, clusterExtra sgroups,
                orph.orphans, orph.orphans_deleted⟩,
      deleted := orph.deleted, trace := orph.trace }

/-- Spec-side: the per-file outcome of the read/validate stage of pass 1 —
the error recorded for a file, or `none` when the file is structurally
valid.  Independent of the filename pattern. -/
def fileError? (f : RawFile) : Option String :=
  match f.doc with
  | .error exc => some (readErrMsg f.name exc)
  | .ok doc => validate_structure doc f.name

/-- Spec-side: a scanned file that reads as JSON and passes structural
validation (membership test for the valid set). -/
def isValidFile (f : RawFile) : Bool :=
  match f.doc with
  | .error _ => false
  | .ok doc => (validate_structure doc f.name).isNone

/-- The raw file-name set used by orphan reconciliation
(`validate_raw.py`, line 199): names of all scanned `*.json` files. -/
def rawNamesOf (rawListing : List RawFile) : List String :=
  (jsonFilesOf rawListing).map (fun f : RawFile => f.name)

/-- Spec-side (§5): the claimed temporal shape of the orphan pass — once
any `deleted` event has occurred, no later event is an `identified` event
(all enumeration precedes all deletion). -/
def deletionAfterEnumeration : List OrphanEvent → Bool
  | [] => true
  | .identified _ :: rest => deletionAfterEnumeration rest
  | .deleted _ :: rest =>
    rest.all (fun e => match e with | .identified _ => false | .deleted _ => true)

/-- The names carried by the `identified` events of a trace, in order. -/
def identifiedNames (tr : List OrphanEvent) : List String :=
  tr.filterMap (fun e => match e with | .identified n => some n | .deleted _ => none)

/-- The CLI environment of `main` (`validate_raw.py`, lines 211–240):
parsed arguments plus the state of the raw directory. -/
structure Env where
  rawDirExists : Bool
  rawDirName : String
  rawListing : List RawFile
  output : Option OutputDir
  strict : Bool
  delete_orphans : Bool

/-- `main` (`validate_raw.py`, lines 211–278): exit code, and the report
when one was produced (`none` models the early failure on a non-existent
raw directory, before any file is touched). -/
def main (env : Env) : Nat × Option RunResult :=
  if env.rawDirExists then
    let r := validate_raw env.rawDirName env.rawListing env.output env.delete_orphans
    ((if r.errors ≠ [] then 1 else if r.warnings ≠ [] ∧ env.strict then 1 else 0), some r)
  else (1, none)

/-! ## Concrete sample inputs (used by witnesses) -/

/-- A structurally valid sample document: canonical schema, one
7-element row. -/
def sampleDoc (trips : Int) : JVal :=
  .obj [("nodeFormat", .arr [.str "id", .str "parentId", .str "trips", .str "frc",
          .str "geometry", .str "processingFailures", .str "privacyTrims"]),
        ("nodes", .arr [.arr [.num 0, .null, .num trips, .num 3, .arr [], .num 0, .num 0]])]

/-- Sample file `111_incoming_0_0.json`. -/
def exFileA : RawFile := ⟨"111_incoming_0_0.json", [48], .ok (sampleDoc 100)⟩

/-- Sample file `222_incoming_0_0.json`, byte-identical to `exFileA`. -/
def exFileB : RawFile := ⟨"222_incoming_0_0.json", [48], .ok (sampleDoc 100)⟩

/-- Sample file `333_outgoing_1_2.json`, distinct content. -/
def exFileC : RawFile := ⟨"333_outgoing_1_2.json", [49], .ok (sampleDoc 200)⟩

/-- Sample file `111_INCOMING_0_0.json`: same normalized slot as
`exFileA`, different content. -/
def exFileCase : RawFile := ⟨"111_INCOMING_0_0.json", [50], .ok (sampleDoc 200)⟩

/-- A sample output directory holding two orphans and one matched name. -/
def exOut : OutputDir :=
  ⟨true, "output", ["999_incoming_0_0.json", "111_incoming_0_0.json", "888_incoming_0_0.json"]⟩

/-- Sample file `custom.json`: valid content, non-conforming name. -/
def exFileBadName : RawFile := ⟨"custom.json", [48], .ok (sampleDoc 100)⟩

/-! ## Pass-1 characterization lemmas -/

theorem pass1_errors (files : List RawFile) :
    (pass1 files).errors = files.filterMap fileError? := by
  induction files with
  | nil => rfl
  | cons f rest ih =>
    simp only [pass1]
    cases h : f.doc with
    | error exc => simp [fileError?, h, ih]
    | ok doc =>
      cases hv : validate_structure doc f.name with
      | some err => simp [fileError?, h, hv, ih]
      | none =>
        cases hp : parse_filename f.name with
        | some p => simp [fileError?, h, hv, hp, ih]
        | none => simp [fileError?, h, hv, hp, ih]

theorem pass1_warnings (files : List RawFile) :
    (pass1 files).warnings =
      (files.filter (fun f => (parse_filename f.name).isNone)).map
        (fun f => badPatternWarn f.name) := by
  induction files with
  | nil => rfl
  | cons f rest ih =>
    simp only [pass1]
    cases hp : parse_filename f.name with
    | some p =>
      cases h : f.doc with
      | error exc => simp [hp, h, ih]
      | ok doc => cases hv : validate_structure doc f.name <;> simp [hp, h, hv, ih]
    | none =>
      cases h : f.doc with
      | error exc => simp [hp, h, ih]
      | ok doc => cases hv : validate_structure doc f.name <;> simp [hp, h, hv, ih]

theorem pass1_bad_pattern (files : List RawFile) :
    (pass1 files).bad_pattern =
      (files.filter (fun f => (parse_filename f.name).isNone)).length := by
  induction files with
  | nil => rfl
  | cons f rest ih =>
    simp only [pass1]
    cases hp : parse_filename f.name with
    | some p =>
      cases h : f.doc with
      | error exc => simp [hp, h, ih]
      | ok doc => cases hv : validate_structure doc f.name <;> simp [hp, h, hv, ih]
    | none =>
      cases h : f.doc with
      | error exc => simp [hp, h, ih] <;> omega
      | ok doc =>
        cases hv : validate_structure doc f.name <;> simp [hp, h, hv, ih] <;> omega

theorem pass1_valid (files : List RawFile) :
    (pass1 files).valid = files.filter isValidFile := by
  induction files with
  | nil => rfl
  | cons f rest ih =>
    simp only [pass1]
    cases h : f.doc with
    | error exc => simp [isValidFile, h, ih]
    | ok doc =>
      cases hv : validate_structure doc f.name with
      | some err => simp [isValidFile, h, hv, ih]
      | none =>
        cases hp : parse_filename f.name with
        | some p => simp [isValidFile, h, hv, hp, ih]
        | none => simp [isValidFile, h, hv, hp, ih]

theorem pass1_parsed (files : List RawFile) :
    (pass1 files).parsed =
      files.filterMap (fun f =>
        if isValidFile f then (parse_filename f.name).map (fun p => (f, p)) else none) := by
  induction files with
  | nil => rfl
  | cons f rest ih =>
    simp only [pass1]
    cases h : f.doc with
    | error exc => simp [isValidFile, h, ih]
    | ok doc =>
      cases hv : validate_structure doc f.name with
      | some err => simp [isValidFile, h, hv, ih]
      | none =>
        cases hp : parse_filename f.name with
        | some p => simp [isValidFile, h, hv, hp, ih]
        | none => simp [isValidFile, h, hv, hp, ih]

theorem pass1_bad_json (files : List RawFile) :
    (pass1 files).bad_json =
      (files.filter (fun f => match f.doc with | .error _ => true | .ok _ => false)).length := by
  induction files with
  | nil => rfl
  | cons f rest ih =>
    simp only [pass1]
    cases h : f.doc with
    | error exc => simp [h, ih]
    | ok doc =>
      cases hv : validate_structure doc f.name with
      | some err => simp [h, hv, ih]
      | none => cases hp : parse_filename f.name <;> simp [h, hv, ih]

theorem pass1_bad_structure (files : List RawFile) :
    (pass1 files).bad_structure =
      (files.filter (fun f => match f.doc with
        | .error _ => false
        | .ok doc => (validate_structure doc f.name).isSome)).length := by
  induction files with
  | nil => rfl
  | cons f rest ih =>
    simp only [pass1]
    cases h : f.doc with
    | error exc => simp [h, ih]
    | ok doc =>
      cases hv : validate_structure doc f.name with
      | some err => simp [h, hv, ih]
      | none => cases hp : parse_filename f.name <;> simp [h, hv, ih]

theorem pass1_partition (files : List RawFile) :
    (pass1 files).valid.length + (pass1 files).bad_json + (pass1 files).bad_structure
      = files.length := by
  induction files with
  | nil => rfl
  | cons f rest ih =>
    simp only [pass1]
    cases h : f.doc with
    | error exc => simp [h] <;> omega
    | ok doc =>
      cases hv : validate_structure doc f.name with
      | some err => simp [h, hv] <;> omega
      | none =>
        cases hp : parse_filename f.name with
        | some p => simp [h, hv, hp] <;> omega
        | none => simp [h, hv, hp] <;> omega

/-! ## Grouping lemmas -/

theorem groupBy_key_mem {κ α : Type} [DecidableEq κ] (key : α → κ) :
    (l : List α) → ∀ g ∈ groupBy key l, ∃ x, x ∈ l ∧ g.1 = key x
  | [] => by simp [groupBy]
  | f :: rest => by
    intro g hg
    rw [groupBy] at hg
    rcases List.mem_cons.mp hg with h | h
    · exact ⟨f, List.mem_cons_self f rest, by rw [h]⟩
    · obtain ⟨x, hx, hk⟩ :=
        groupBy_key_mem key (rest.filter (fun g => decide (key g ≠ key f))) g h
      exact ⟨x, List.mem_cons_of_mem f (List.mem_of_mem_filter hx), hk⟩
termination_by l => l.length
decreasing_by simp only [List.length_cons]; exact Nat.lt_succ_of_le (List.length_filter_le _ _)

theorem groupBy_sound {κ α : Type} [DecidableEq κ] (key : α → κ) :
    (l : List α) → ∀ g ∈ groupBy key l,
      g.2 = l.filter (fun x => decide (key x = g.1)) ∧ g.2 ≠ []
  | [] => by simp [groupBy]
  | f :: rest => by
    intro g hg
    rw [groupBy] at hg
    rcases List.mem_cons.mp hg with h | h
    · subst h
      refine ⟨?_, by simp⟩
      simp [List.filter_cons]
    · obtain ⟨x, hx, hk⟩ :=
        groupBy_key_mem key (rest.filter (fun g => decide (key g ≠ key f))) g h
      have hxne : key x ≠ key f := by
        have := (List.mem_filter.mp hx).2
        simpa using this
      have hne : g.1 ≠ key f := by rw [hk]; exact hxne
      obtain ⟨h2, hne2⟩ :=
        groupBy_sound key (rest.filter (fun g => decide (key g ≠ key f))) g h
      refine ⟨?_, hne2⟩
      rw [h2, List.filter_filter, List.filter_cons]
      have hf : (decide (key f = g.1)) = false := by
        simp only [decide_eq_false_iff_not]
        exact fun hh => hne hh.symm
      rw [hf]
      simp only [Bool.false_eq_true, if_false]
      apply List.filter_congr
      intro a _
      by_cases ha : key a = g.1
      · have : key a ≠ key f := by rw [ha]; exact hne
        simp [ha, this, hne]
      · simp [ha]
termination_by l => l.length
decreasing_by simp only [List.length_cons]; exact Nat.lt_succ_of_le (List.length_filter_le _ _)

theorem groupBy_keys_nodup {κ α : Type} [DecidableEq κ] (key : α → κ) :
    (l : List α) → ((groupBy key l).map Prod.fst).Nodup
  | [] => by simp [groupBy]
  | f :: rest => by
    rw [groupBy]
    simp only [List.map_cons, List.nodup_cons]
    constructor
    · intro hmem
      obtain ⟨g, hg, hg1⟩ := List.mem_map.mp hmem
      obtain ⟨x, hx, hk⟩ :=
        groupBy_key_mem key (rest.filter (fun g => decide (key g ≠ key f))) g hg
      have hxne : key x ≠ key f := by
        have := (List.mem_filter.mp hx).2
        simpa using this
      exact hxne (by rw [← hk, hg1])
    · exact groupBy_keys_nodup key (rest.filter (fun g => decide (key g ≠ key f)))
termination_by l => l.length
decreasing_by simp only [List.length_cons]; exact Nat.lt_succ_of_le (List.length_filter_le _ _)

theorem groupBy_comp_key {κ₁ κ₂ α : Type} [DecidableEq κ₁] [DecidableEq κ₂]
    (key : α → κ₁) (k : κ₁ → κ₂) :
    (l : List α) → (∀ x ∈ l, ∀ y ∈ l, k (key x) = k (key y) → key x = key y) →
      groupBy (fun a => k (key a)) l = (groupBy key l).map (fun g => (k g.1, g.2))
  | [] => by simp [groupBy]
  | f :: rest => by
    intro hinj
    rw [groupBy, groupBy]
    simp only [List.map_cons]
    have hmemf : f ∈ f :: rest := List.mem_cons_self f rest
    have hfilter1 :
        rest.filter (fun g => decide (k (key g) = k (key f)))
          = rest.filter (fun g => decide (key g = key f)) := by
      apply List.filter_congr
      intro a ha
      by_cases h : key a = key f
      · simp [h]
      · have hkk : ¬ k (key a) = k (key f) := fun hh =>
          h (hinj a (List.mem_cons_of_mem f ha) f hmemf hh)
        simp [h, hkk]
    have hfilter2 :
        rest.filter (fun g => decide (k (key g) ≠ k (key f)))
          = rest.filter (fun g => decide (key g ≠ key f)) := by
      apply List.filter_congr
      intro a ha
      by_cases h : key a = key f
      · simp [h]
      · have hkk : ¬ k (key a) = k (key f) := fun hh =>
          h (hinj a (List.mem_cons_of_mem f ha) f hmemf hh)
        simp [h, hkk]
    rw [hfilter1, hfilter2]
    congr 1
    apply groupBy_comp_key key k (rest.filter (fun g => decide (key g ≠ key f)))
    intro x hx y hy
    exact hinj x (List.mem_cons_of_mem f (List.mem_of_mem_filter hx))
      y (List.mem_cons_of_mem f (List.mem_of_mem_filter hy))
termination_by l => l.length
decreasing_by simp only [List.length_cons]; exact Nat.lt_succ_of_le (List.length_filter_le _ _)

theorem clusterErrors_eq (mk : String × List RawFile → String) :
    ∀ gs : List (String × List RawFile),
      clusterErrors mk gs = (gs.filter (fun g => decide (1 < g.2.length))).map mk := by
  intro gs
  induction gs with
  | nil => rfl
  | cons g rest ih =>
    rw [clusterErrors]
    by_cases h : 1 < g.2.length
    · simp [List.filter_cons, h, ih]
    · simp [List.filter_cons, h, ih]

theorem clusterExtra_eq :
    ∀ gs : List (String × List RawFile),
      clusterExtra gs = (gs.map (fun g => g.2.length - 1)).sum := by
  intro gs
  induction gs with
  | nil => rfl
  | cons g rest ih =>
    rw [clusterExtra]
    by_cases h : 1 < g.2.length
    · simp [h, ih]
    · have : g.2.length - 1 = 0 := by omega
      simp [h, ih, this]

/-! ## Orphan-pass characterization -/

theorem orphanLoop_spec (rawNames : List String) (dirName : String) (del : Bool) :
    ∀ names : List String,
      orphanLoop rawNames dirName del names =
        { warnings := (names.filter (fun n => decide (n ∉ rawNames))).map (orphanWarn dirName),
          orphans := (names.filter (fun n => decide (n ∉ rawNames))).length,
          deleted := if del then names.filter (fun n => decide (n ∉ rawNames)) else [],
          orphans_deleted :=
            if del then (names.filter (fun n => decide (n ∉ rawNames))).length else 0,
          trace := ((names.filter (fun n => decide (n ∉ rawNames))).map
            (fun n => OrphanEvent.identified n ::
              (if del then [OrphanEvent.deleted n] else []))).flatten } := by
  intro names
  induction names with
  | nil => cases del <;> rfl
  | cons n rest ih =>
    rw [orphanLoop]
    by_cases hmem : n ∈ rawNames
    · simp [hmem, ih, List.filter_cons]
    · cases del <;> simp [hmem, ih, List.filter_cons]

theorem identifiedNames_blocks (del : Bool) :
    ∀ names : List String,
      identifiedNames ((names.map (fun n => OrphanEvent.identified n ::
        (if del then [OrphanEvent.deleted n] else []))).flatten) = names := by
  intro names
  induction names with
  | nil => rfl
  | cons n rest ih => cases del <;> simp [identifiedNames] at ih ⊢ <;> exact ih

theorem validate_raw_errors_output_invariant (rawDirName : String)
    (rawListing : List RawFile) (output : Option OutputDir) (del del2 : Bool) :
    (validate_raw rawDirName rawListing output del).errors
      = (validate_raw rawDirName rawListing none del2).errors := by
  simp only [validate_raw]
  split <;> rfl

/-! ## Claims C5, C7, C8, C9, C10 -/

/-- Claim C9: on every run the counters partition the scanned files:
`total_files` is the number of scanned `*.json` files and equals
`valid_files + bad_json + bad_structure` (each scanned file is counted in
exactly one of those three; `bad_pattern` is independent of the
partition), and every counter is a non-negative integer (here by the
`Nat` type of every `Stats` field). -/
theorem c9_counters_partition (rawDirName : String) (rawListing : List RawFile)
    (output : Option OutputDir) (del : Bool) :
    (validate_raw rawDirName rawListing output del).stats.total_files
        = (jsonFilesOf rawListing).length ∧
    (validate_raw rawDirName rawListing output del).stats.total_files
        = (validate_raw rawDirName rawListing output del).stats.valid_files
          + (validate_raw rawDirName rawListing output del).stats.bad_json
          + (validate_raw rawDirName rawListing output del).stats.bad_structure ∧
    0 ≤ (validate_raw rawDirName rawListing output del).stats.total_files ∧
    0 ≤ (validate_raw rawDirName rawListing output del).stats.valid_files ∧
    0 ≤ (validate_raw rawDirName rawListing output del).stats.bad_pattern ∧
    0 ≤ (validate_raw rawDirName rawListing output del).stats.bad_json ∧
    0 ≤ (validate_raw rawDirName rawListing output del).stats.bad_structure ∧
    0 ≤ (validate_raw rawDirName rawListing output del).stats.hash_dupes ∧
    0 ≤ (validate_raw rawDirName rawListing output del).stats.slot_collisions ∧
    0 ≤ (validate_raw rawDirName rawListing output del).stats.orphans ∧
    0 ≤ (validate_raw rawDirName rawListing output del).stats.orphans_deleted := by
  simp only [validate_raw]
  split
  next h =>
    have hnil : jsonFilesOf rawListing = [] := by simpa [List.isEmpty_iff] using h
    refine ⟨rfl, ?_, Nat.zero_le _, Nat.zero_le _, Nat.zero_le _, Nat.zero_le _,
      Nat.zero_le _, Nat.zero_le _, Nat.zero_le _, Nat.zero_le _, Nat.zero_le _⟩
    simp [hnil]
  next h =>
    exact ⟨rfl, (pass1_partition _).symm, Nat.zero_le _, Nat.zero_le _, Nat.zero_le _,
      Nat.zero_le _, Nat.zero_le _, Nat.zero_le _, Nat.zero_le _, Nat.zero_le _,
      Nat.zero_le _⟩

/-- Claim C8: the CLI entry point exits 0 exactly when the run produced no
errors and (no warnings, or strict mode disabled); it exits 1 exactly when
an error is present, or a warning is present under strict mode, or the raw
directory does not exist — and in that last case it fails before any file
is processed, producing no report. -/
theorem c8_exit_code (env : Env) :
    ((main env).1 = 0 ↔ (env.rawDirExists = true ∧
      (validate_raw env.rawDirName env.rawListing env.output env.delete_orphans).errors = [] ∧
      ((validate_raw env.rawDirName env.rawListing env.output env.delete_orphans).warnings = []
        ∨ env.strict = false))) ∧
    ((main env).1 = 1 ↔ (env.rawDirExists = false ∨
      (validate_raw env.rawDirName env.rawListing env.output env.delete_orphans).errors ≠ [] ∨
      ((validate_raw env.rawDirName env.rawListing env.output env.delete_orphans).warnings ≠ []
        ∧ env.strict = true))) ∧
    (env.rawDirExists = false → (main env).2 = none) := by
  by_cases he : env.rawDirExists = true
  · by_cases h1 : (validate_raw env.rawDirName env.rawListing env.output env.delete_orphans).errors = []
      <;> by_cases h2 : (validate_raw env.rawDirName env.rawListing env.output env.delete_orphans).warnings = []
      <;> by_cases h3 : env.strict = true
      <;> simp [main, he, h1, h2, h3]
  · have he2 : env.rawDirExists = false := by
      cases h : env.rawDirExists
      · rfl
      · exact absurd h he
    simp [main, he2]

/-- Claim C10: the raw file-name set used by orphan reconciliation is the
set of all scanned `*.json` names, including files that failed JSON
parsing or structural validation: an output-directory entry whose name
equals any scanned raw file name is never identified, reported, or
deleted as an orphan. -/
theorem c10_raw_names_never_orphans (rawDirName : String) (rawListing : List RawFile)
    (output : Option OutputDir) (del : Bool) :
    ∀ n ∈ rawNamesOf rawListing,
      n ∉ (validate_raw rawDirName rawListing output del).deleted ∧
      OrphanEvent.identified n ∉ (validate_raw rawDirName rawListing output del).trace ∧
      OrphanEvent.deleted n ∉ (validate_raw rawDirName rawListing output del).trace := by
  intro n hn
  simp only [validate_raw]
  split
  · simp
  · cases output with
    | none => simp
    | some o =>
      by_cases hd : o.isDir
      · simp only [hd, if_pos]
        rw [orphanPass, orphanLoop_spec]
        rw [rawNamesOf] at hn
        obtain ⟨f, hf, hfn⟩ := List.mem_map.mp hn
        have hkey : ∀ m, m ∈ (sortNames (o.listing.filter matchesJsonGlob)).filter
            (fun m => decide (m ∉ (jsonFilesOf rawListing).map (fun f : RawFile => f.name)))
            → m ≠ n := by
          intro m hm hmn
          have hno := (List.mem_filter.mp hm).2
          rw [decide_eq_true_iff] at hno
          exact hno (hmn ▸ hn)
        refine ⟨?_, ?_, ?_⟩
        · intro hmem
          cases del with
          | false => simp at hmem
          | true =>
            simp only [if_pos] at hmem
            exact hkey n hmem rfl
        · intro hmem
          obtain ⟨l, hl, hin⟩ := List.mem_flatten.mp hmem
          obtain ⟨m, hm, hml⟩ := List.mem_map.mp hl
          rw [← hml] at hin
          have hne := hkey m hm
          cases del <;> simp at hin <;> exact hne hin.symm
        · intro hmem
          obtain ⟨l, hl, hin⟩ := List.mem_flatten.mp hmem
          obtain ⟨m, hm, hml⟩ := List.mem_map.mp hl
          rw [← hml] at hin
          have hne := hkey m hm
          cases del <;> simp at hin
          exact hne hin.symm
      · simp [hd]

/-- Witness for C10: a scanned raw name is never deleted as an orphan in a
concrete run with deletion enabled. -/
theorem c10_witness :
    "111_incoming_0_0.json" ∈ rawNamesOf [exFileA] ∧
    "111_incoming_0_0.json" ∉ (validate_raw "raw" [exFileA] (some exOut) true).deleted := by
  refine ⟨by decide, ?_⟩
  exact (c10_raw_names_never_orphans "raw" [exFileA] (some exOut) true
    "111_incoming_0_0.json" (by decide)).1

/-- Witness for C8: the non-existent-directory case produces no report. -/
theorem c8_witness :
    (main ⟨false, "nope", [], none, false, false⟩).2 = none :=
  (c8_exit_code ⟨false, "nope", [], none, false, false⟩).2.2 rfl

/-- Claim C5 (counterexample): in the run over `[exFileA]` with output
directory `exOut` (two orphans) and deletion enabled, the first orphan is
unlinked before the second orphan name is enumerated, so the trace does
not place all enumeration before all deletion as the claim states. -/
theorem c5_counterexample :
    deletionAfterEnumeration
      (validate_raw "raw" [exFileA] (some exOut) true).trace = false := by
  decide

/-- Claim C5 (amended): the output-directory listing is fully materialized
before the orphan loop runs, so deletion never disturbs the enumeration —
the enumerated orphan-name sequence equals the listing filtered against
the raw-name set, independently of the delete flag — but each orphan is
unlinked immediately upon identification, so the trace is the per-name
interleaving `identified n, deleted n`, not a fully separated
enumerate-then-delete sequence. -/
theorem c5_orphan_enumeration_then_deletion (rawDirName : String)
    (rawListing : List RawFile) (o : OutputDir) (del : Bool)
    (h1 : jsonFilesOf rawListing ≠ []) (h2 : o.isDir = true) :
    (validate_raw rawDirName rawListing (some o) del).trace
      = (((sortNames (o.listing.filter matchesJsonGlob)).filter
          (fun n => decide (n ∉ rawNamesOf rawListing))).map
          (fun n => OrphanEvent.identified n ::
            (if del then [OrphanEvent.deleted n] else []))).flatten ∧
    identifiedNames (validate_raw rawDirName rawListing (some o) del).trace
      = (sortNames (o.listing.filter matchesJsonGlob)).filter
          (fun n => decide (n ∉ rawNamesOf rawListing)) ∧
    (validate_raw rawDirName rawListing (some o) del).deleted
      = (if del then (sortNames (o.listing.filter matchesJsonGlob)).filter
          (fun n => decide (n ∉ rawNamesOf rawListing)) else []) := by
  have hne : (jsonFilesOf rawListing).isEmpty = false := by
    simpa [List.isEmpty_iff] using h1
  simp only [validate_raw, hne, Bool.false_eq_true, if_false, h2, if_pos]
  rw [orphanPass, orphanLoop_spec, rawNamesOf]
  exact ⟨rfl, identifiedNames_blocks del _, rfl⟩

/-- Witness for C5: the amended theorem at a concrete run — the enumerated
orphan names of the trace are exactly the two names missing from raw. -/
theorem c5_witness :
    identifiedNames (validate_raw "raw" [exFileA] (some exOut) true).trace
      = ["888_incoming_0_0.json", "999_incoming_0_0.json"] := by
  rw [(c5_orphan_enumeration_then_deletion "raw" [exFileA] exOut true
    (by decide) rfl).2.1]
  decide

/-- Claim C7 (counterexample): with an empty raw directory the run returns
early and orphan reconciliation is skipped entirely, even though the
output directory exists and contains `a.json`, a name absent from the
raw-name set: no orphan warning is emitted and the counter stays 0,
contrary to the claim's "for every run". -/
theorem c7_counterexample :
    ("a.json" ∈ (⟨true, "output", ["a.json"]⟩ : OutputDir).listing ∧
     "a.json" ∉ rawNamesOf ([] : List RawFile)) ∧
    (validate_raw "raw" ([] : List RawFile)
      (some ⟨true, "output", ["a.json"]⟩) false).stats.orphans = 0 ∧
    (validate_raw "raw" ([] : List RawFile)
      (some ⟨true, "output", ["a.json"]⟩) false).warnings = [noFilesWarn "raw"] := by
  exact ⟨⟨by decide, by decide⟩, rfl, rfl⟩

/-- Claim C7 (amended): provided the raw listing is non-empty (an empty
raw directory returns early, skipping reconciliation): each `*.json` name
in the output directory absent from the raw-name set yields one warning
and one counter increment (one per name — the orphan names are pairwise
distinct whenever the directory listing is), matching by exact file-name
equality; with deletion enabled each such file is unlinked and the
deleted counter incremented; with no output directory or a non-existent
one, reconciliation is skipped with zero orphans, and the error list
never depends on the output directory at all. -/
theorem c7_orphan_reconciliation (rawDirName : String) (rawListing : List RawFile)
    (del : Bool) (o : OutputDir) (h1 : jsonFilesOf rawListing ≠ []) :
    (o.isDir = true →
      (validate_raw rawDirName rawListing (some o) del).warnings
        = (pass1 (jsonFilesOf rawListing)).warnings
          ++ ((sortNames (o.listing.filter matchesJsonGlob)).filter
              (fun n => decide (n ∉ rawNamesOf rawListing))).map (orphanWarn o.dirName) ∧
      (validate_raw rawDirName rawListing (some o) del).stats.orphans
        = ((sortNames (o.listing.filter matchesJsonGlob)).filter
            (fun n => decide (n ∉ rawNamesOf rawListing))).length ∧
      ((sortNames (o.listing.filter matchesJsonGlob)).Nodup →
        ((sortNames (o.listing.filter matchesJsonGlob)).filter
            (fun n => decide (n ∉ rawNamesOf rawListing))).Nodup) ∧
      (validate_raw rawDirName rawListing (some o) del).deleted
        = (if del then (sortNames (o.listing.filter matchesJsonGlob)).filter
            (fun n => decide (n ∉ rawNamesOf rawListing)) else []) ∧
      (validate_raw rawDirName rawListing (some o) del).stats.orphans_deleted
        = (if del then ((sortNames (o.listing.filter matchesJsonGlob)).filter
            (fun n => decide (n ∉ rawNamesOf rawListing))).length else 0)) ∧
    (o.isDir = false →
      (validate_raw rawDirName rawListing (some o) del).stats.orphans = 0 ∧
      (validate_raw rawDirName rawListing (some o) del).stats.orphans_deleted = 0 ∧
      (validate_raw rawDirName rawListing (some o) del).deleted = [] ∧
      (validate_raw rawDirName rawListing (some o) del).warnings
        = (pass1 (jsonFilesOf rawListing)).warnings) ∧
    ((validate_raw rawDirName rawListing none del).stats.orphans = 0 ∧
     (validate_raw rawDirName rawListing none del).stats.orphans_deleted = 0 ∧
     (validate_raw rawDirName rawListing none del).deleted = [] ∧
     (validate_raw rawDirName rawListing none del).warnings
        = (pass1 (jsonFilesOf rawListing)).warnings) ∧
    (validate_raw rawDirName rawListing (some o) del).errors
      = (validate_raw rawDirName rawListing none del).errors := by
  have hne : (jsonFilesOf rawListing).isEmpty = false := by
    simpa [List.isEmpty_iff] using h1
  refine ⟨?_, ?_, ?_, validate_raw_errors_output_invariant _ _ _ _ _⟩
  · intro hd
    simp only [validate_raw, hne, Bool.false_eq_true, if_false, hd, if_pos]
    rw [orphanPass, orphanLoop_spec, rawNamesOf]
    refine ⟨rfl, rfl, ?_, rfl, ?_⟩
    · intro hnd
      exact hnd.filter _
    · cases del <;> rfl
  · intro hd
    simp only [validate_raw, hne, Bool.false_eq_true, if_false, hd]
    simp
  · simp only [validate_raw, hne, Bool.false_eq_true, if_false]
    simp

/-- Witness for C7: the amended theorem at a concrete run — two orphans
are counted for the two output names missing from raw. -/
theorem c7_witness :
    (validate_raw "raw" [exFileA] (some exOut) false).stats.orphans = 2 := by
  rw [((c7_orphan_reconciliation "raw" [exFileA] false exOut (by decide)).1 rfl).2.1]
  decide

/-- `isValidFile` agrees with `fileError?`. -/
theorem isValidFile_iff_no_error (f : RawFile) :
    isValidFile f = true ↔ fileError? f = none := by
  cases hdoc : f.doc <;> simp [isValidFile, fileError?, hdoc]

/-- Claim C6: every scanned file whose name fails parsing receives a
warning (never an error) and a `bad_pattern` increment, and still
undergoes the JSON read and structural validation; when those succeed the
file enters the valid set (the domain of content-hash grouping) but never
appears in the parsed-name map (the domain of slot grouping). -/
theorem c6_bad_pattern_tolerated (rawDirName : String) (rawListing : List RawFile)
    (output : Option OutputDir) (del : Bool) :
    (pass1 (jsonFilesOf rawListing)).warnings
      = ((jsonFilesOf rawListing).filter (fun f => (parse_filename f.name).isNone)).map
          (fun f => badPatternWarn f.name) ∧
    (validate_raw rawDirName rawListing output del).stats.bad_pattern
      = ((jsonFilesOf rawListing).filter (fun f => (parse_filename f.name).isNone)).length ∧
    (pass1 (jsonFilesOf rawListing)).errors
      = (jsonFilesOf rawListing).filterMap fileError? ∧
    (∀ f ∈ jsonFilesOf rawListing, (parse_filename f.name).isNone →
      badPatternWarn f.name ∈ (pass1 (jsonFilesOf rawListing)).warnings ∧
      (fileError? f = none →
        f ∈ (pass1 (jsonFilesOf rawListing)).valid ∧
        ∀ pr ∈ (pass1 (jsonFilesOf rawListing)).parsed, pr.1 ≠ f)) := by
  refine ⟨pass1_warnings _, ?_, pass1_errors _, ?_⟩
  · simp only [validate_raw]
    split
    next h =>
      have hnil : jsonFilesOf rawListing = [] := by simpa [List.isEmpty_iff] using h
      simp [hnil]
    next h => exact pass1_bad_pattern _
  · intro f hf hnone
    refine ⟨?_, ?_⟩
    · rw [pass1_warnings]
      exact List.mem_map.mpr ⟨f, List.mem_filter.mpr ⟨hf, by simpa using hnone⟩, rfl⟩
    · intro herr
      refine ⟨?_, ?_⟩
      · rw [pass1_valid]
        exact List.mem_filter.mpr ⟨hf, (isValidFile_iff_no_error f).mpr herr⟩
      · intro pr hpr
        rw [pass1_parsed] at hpr
        obtain ⟨g, hg, hmap⟩ := List.mem_filterMap.mp hpr
        intro heq
        by_cases hv : isValidFile g
        · rw [if_pos hv] at hmap
          obtain ⟨p, hp, hpr2⟩ := Option.map_eq_some'.mp hmap
          rw [← hpr2] at heq
          simp only at heq
          rw [heq] at hp
          rw [hp] at hnone
          simp at hnone
        · rw [if_neg hv] at hmap
          exact Option.noConfusion hmap

/-- Witness for C6: in a concrete run, `custom.json` draws the
bad-pattern warning yet still enters the valid set. -/
theorem c6_witness :
    badPatternWarn "custom.json" ∈ (pass1 (jsonFilesOf [exFileBadName, exFileA])).warnings ∧
    exFileBadName ∈ (pass1 (jsonFilesOf [exFileBadName, exFileA])).valid := by
  have h := (c6_bad_pattern_tolerated "raw" [exFileBadName, exFileA] none false).2.2.2
    exFileBadName (by decide) (by decide)
  exact ⟨h.1, (h.2 (by decide)).1⟩

/-! ## Claim C3: the structural validator -/

theorem validateNodes_renders (name : String) (m : Nat) :
    ∀ i l, validateNodes name m i l = (specRowFailure m i l).map (renderFailure name) := by
  intro i l
  induction l generalizing i with
  | nil => rfl
  | cons node rest ih =>
    cases node with
    | arr elems =>
      by_cases h : elems.length = m
      · simp [validateNodes, specRowFailure, h, ih]
      · simp [validateNodes, specRowFailure, h, renderFailure]
    | null => rfl
    | bool b => rfl
    | num n => rfl
    | str s => rfl
    | obj kvs => rfl

theorem specRowFailure_none_iff (m : Nat) :
    ∀ i l, specRowFailure m i l = none
      ↔ ∀ node ∈ l, ∃ elems, node = JVal.arr elems ∧ elems.length = m := by
  intro i l
  induction l generalizing i with
  | nil => simp [specRowFailure]
  | cons node rest ih =>
    cases node with
    | arr elems =>
      by_cases h : elems.length = m
      · simp [specRowFailure, h, ih]
      · simp [specRowFailure, h]
    | null => simp [specRowFailure]
    | bool b => simp [specRowFailure]
    | num n => simp [specRowFailure]
    | str s => simp [specRowFailure]
    | obj kvs => simp [specRowFailure]

/-- Claim C3: `validate_structure` returns `none` exactly on documents
satisfying the declarative validity invariant (keyed mapping, both keys,
both sequences, case-folded canonical schema, each row a sequence of
exactly `len(nodeFormat)` elements); the checks run in the fixed spec
order, short-circuiting at the first failure, and the returned message is
the rendering of that first failure, which names the offending key or row
index. -/
theorem c3_validate_structure (doc : JVal) (name : String) :
    validate_structure doc name = (specFirstFailure doc).map (renderFailure name) ∧
    (specFirstFailure doc = none ↔ ValidStructure doc) := by
  constructor
  · cases doc with
    | obj kvs =>
      simp only [validate_structure, specFirstFailure]
      cases hnf : lookupKey kvs "nodeFormat" with
      | none => rfl
      | some nf =>
        cases hnodes : lookupKey kvs "nodes" with
        | none => rfl
        | some nodes =>
          cases nf with
          | arr nfl =>
            cases nodes with
            | arr nodesl =>
              by_cases hs : nfl.map lowerField = EXPECTED_FIELDS.map JVal.str
              · simp [hs, validateNodes_renders]
              · simp [hs, renderFailure]
            | null => rfl
            | bool b => rfl
            | num n => rfl
            | str s => rfl
            | obj kvs2 => rfl
          | null => rfl
          | bool b => rfl
          | num n => rfl
          | str s => rfl
          | obj kvs3 => rfl
    | null => rfl
    | bool b => rfl
    | num n => rfl
    | str s => rfl
    | arr l => rfl
  · cases doc with
    | obj kvs =>
      simp only [specFirstFailure, ValidStructure]
      cases hnf : lookupKey kvs "nodeFormat" with
      | none => simp [hnf]
      | some nf =>
        cases hnodes : lookupKey kvs "nodes" with
        | none => simp [hnf, hnodes]
        | some nodes =>
          cases nf with
          | arr nfl =>
            cases nodes with
            | arr nodesl =>
              by_cases hs : nfl.map lowerField = EXPECTED_FIELDS.map JVal.str
              · simp [hs, hnf, hnodes, specRowFailure_none_iff]
              · simp [hs, hnf, hnodes]
            | null => simp [hnf, hnodes]
            | bool b => simp [hnf, hnodes]
            | num n => simp [hnf, hnodes]
            | str s => simp [hnf, hnodes]
            | obj kvs2 => simp [hnf, hnodes]
          | null => simp [hnf, hnodes]
          | bool b => simp [hnf, hnodes]
          | num n => simp [hnf, hnodes]
          | str s => simp [hnf, hnodes]
          | obj kvs3 => simp [hnf, hnodes]
    | null => simp [specFirstFailure, ValidStructure]
    | bool b => simp [specFirstFailure, ValidStructure]
    | num n => simp [specFirstFailure, ValidStructure]
    | str s => simp [specFirstFailure, ValidStructure]
    | arr l => simp [specFirstFailure, ValidStructure]

/-- Witness for C3: the sample document validates, both operationally and
declaratively. -/
theorem c3_witness :
    validate_structure (sampleDoc 100) "x.json" = none ∧ ValidStructure (sampleDoc 100) := by
  have h := c3_validate_structure (sampleDoc 100) "x.json"
  have hnone : specFirstFailure (sampleDoc 100) = none := by decide
  exact ⟨by rw [h.1, hnone]; rfl, h.2.mp hnone⟩

/-! ## Claim C1: content-hash duplicate detection -/

/-- Claim C1: duplicate detection groups the valid files by the SHA-256
fingerprint of their raw bytes; assuming the digest is injective on the
run's contents (no SHA-256 collision among the scanned files), the groups
are exactly the byte-identical classes holding every member, each class
appears once, every class of N > 1 byte-identical files contributes
exactly one error listing all N member names, `hash_dupes` increments by
N − 1 per class, and size-1 classes contribute no error and no
increment (their `N − 1` summand is 0). -/
theorem c1_content_dupes (rawDirName : String) (rawListing : List RawFile)
    (output : Option OutputDir) (del : Bool)
    (hinj : ∀ x ∈ (pass1 (jsonFilesOf rawListing)).valid,
            ∀ y ∈ (pass1 (jsonFilesOf rawListing)).valid,
      file_hash x.content = file_hash y.content → x.content = y.content) :
    (∀ g ∈ groupBy (fun f : RawFile => f.content) (pass1 (jsonFilesOf rawListing)).valid,
        g.2 = (pass1 (jsonFilesOf rawListing)).valid.filter
          (fun f => decide (f.content = g.1)) ∧ g.2 ≠ []) ∧
    ((groupBy (fun f : RawFile => f.content) (pass1 (jsonFilesOf rawListing)).valid).map
        Prod.fst).Nodup ∧
    (∃ pre post, (validate_raw rawDirName rawListing output del).errors
      = pre ++ ((groupBy (fun f : RawFile => f.content)
            (pass1 (jsonFilesOf rawListing)).valid).filter
            (fun g => decide (1 < g.2.length))).map
            (fun g => hashDupeError (file_hash g.1, g.2)) ++ post) ∧
    (validate_raw rawDirName rawListing output del).stats.hash_dupes
      = ((groupBy (fun f : RawFile => f.content) (pass1 (jsonFilesOf rawListing)).valid).map
          (fun g => g.2.length - 1)).sum := by
  have hcomp : groupBy (fun f : RawFile => file_hash f.content)
        (pass1 (jsonFilesOf rawListing)).valid
      = (groupBy (fun f : RawFile => f.content)
          (pass1 (jsonFilesOf rawListing)).valid).map
          (fun g => (file_hash g.1, g.2)) :=
    groupBy_comp_key (fun f : RawFile => f.content) file_hash _ hinj
  refine ⟨groupBy_sound _ _, groupBy_keys_nodup _ _, ?_, ?_⟩
  · simp only [validate_raw]
    split
    next h =>
      have hnil : jsonFilesOf rawListing = [] := by simpa [List.isEmpty_iff] using h
      refine ⟨[], [], ?_⟩
      simp [hnil, pass1, groupBy]
    next h =>
      refine ⟨(pass1 (jsonFilesOf rawListing)).errors,
        clusterErrors slotCollisionError (slotGroups (pass1 (jsonFilesOf rawListing)).parsed), ?_⟩
      simp only [List.append_assoc]
      congr 1
      congr 1
      rw [clusterErrors_eq, hcomp, List.filter_map, List.map_map]
      rfl
  · simp only [validate_raw]
    split
    next h =>
      have hnil : jsonFilesOf rawListing = [] := by simpa [List.isEmpty_iff] using h
      simp [hnil, pass1, groupBy]
    next h =>
      show clusterExtra _ = _
      rw [clusterExtra_eq, hcomp, List.map_map]
      rfl

/-- Witness for C1: the digest-injectivity hypothesis discharged on a
concrete run of three valid files, two of them byte-identical. -/
theorem c1_witness :
    ((groupBy (fun f : RawFile => f.content)
        (pass1 (jsonFilesOf [exFileA, exFileB, exFileC])).valid).map Prod.fst).Nodup :=
  (c1_content_dupes "raw" [exFileA, exFileB, exFileC] none false (by decide)).2.1

/-! ## Claim C4: the filename parser -/

theorem all_takeWhile_self (p : Char → Bool) :
    ∀ l : List Char, (l.takeWhile p).all p = true := by
  intro l
  induction l with
  | nil => rfl
  | cons c l ih =>
    by_cases h : p c
    · simp [List.takeWhile_cons, h, ih]
    · simp [List.takeWhile_cons, h]

theorem span_digits_append (d : List Char) (hd : d.all Char.isDigit = true)
    (c : Char) (hc : Char.isDigit c = false) (r : List Char) :
    (d ++ c :: r).takeWhile Char.isDigit = d ∧
    (d ++ c :: r).dropWhile Char.isDigit = c :: r := by
  induction d with
  | nil => simp [List.takeWhile_cons, List.dropWhile_cons, hc]
  | cons a d ih =>
    simp only [List.all_cons, Bool.and_eq_true] at hd
    have h2 := ih hd.2
    simp [List.takeWhile_cons, List.dropWhile_cons, hd.1, h2.1, h2.2]

theorem parseChars_some_decomp (l : List Char) (p : ParsedFilename)
    (h : parseChars l = some p) :
    ∃ d dir x y tail,
      l = d ++ '_' :: (dir ++ '_' :: (x ++ '_' :: (y ++ tail))) ∧
      d ≠ [] ∧ d.all Char.isDigit ∧ x ≠ [] ∧ x.all Char.isDigit ∧
      y ≠ [] ∧ y.all Char.isDigit ∧
      (dir.map Char.toLower = incomingChars ∨ dir.map Char.toLower = outgoingChars) ∧
      (tail.map Char.toLower = dotJson ∨ tail.map Char.toLower = dotJsonNl) ∧
      p = ⟨String.mk d, String.mk (dir.map Char.toLower), String.mk x, String.mk y⟩ := by
  simp only [parseChars] at h
  split at h
  · exact absurd h (by simp)
  next h0 =>
  split at h
  · exact absurd h (by simp)
  next c1 r2 hr1 =>
  split at h
  case isFalse => exact absurd h (by simp)
  next hc1 =>
  split at h
  case isFalse => exact absurd h (by simp)
  next hdir =>
  split at h
  · exact absurd h (by simp)
  next c2 r3 heq2 =>
  split at h
  case isFalse => exact absurd h (by simp)
  next hc2 =>
  split at h
  case isTrue => exact absurd h (by simp)
  next hx0 =>
  split at h
  · exact absurd h (by simp)
  next c3 r5 heq3 =>
  split at h
  case isFalse => exact absurd h (by simp)
  next hc3 =>
  split at h
  case isTrue => exact absurd h (by simp)
  next hy0 =>
  split at h
  case isFalse => exact absurd h (by simp)
  next htail =>
  subst hc1; subst hc2; subst hc3
  have hp := (Option.some.inj h).symm
  refine ⟨l.takeWhile Char.isDigit, r2.take 8, r3.takeWhile Char.isDigit,
    r5.takeWhile Char.isDigit, r5.dropWhile Char.isDigit, ?_, ?_, ?_, ?_, ?_, ?_, ?_, hdir,
    htail, hp⟩
  · conv_lhs => rw [← List.takeWhile_append_dropWhile (p := Char.isDigit) (l := l), hr1]
    congr 1
    simp only [List.cons.injEq, true_and]
    conv_lhs => rw [← List.take_append_drop 8 r2, heq2]
    congr 1
    simp only [List.cons.injEq, true_and]
    conv_lhs => rw [← List.takeWhile_append_dropWhile (p := Char.isDigit) (l := r3), heq3]
    congr 1
    simp only [List.cons.injEq, true_and]
    conv_lhs => rw [← List.takeWhile_append_dropWhile (p := Char.isDigit) (l := r5)]
  · simpa [List.isEmpty_iff] using h0
  · exact all_takeWhile_self _ _
  · simpa [List.isEmpty_iff] using hx0
  · exact all_takeWhile_self _ _
  · simpa [List.isEmpty_iff] using hy0
  · exact all_takeWhile_self _ _

theorem toLower_fix_of_isDigit (c : Char) (h : c.isDigit = true) : c.toLower = c := by
  simp [Char.isDigit] at h
  rw [Char.toLower]
  have hn : ¬ (c.toNat ≥ 65 ∧ c.toNat ≤ 90) := by
    intro hcon
    have h2 : c.val.toNat ≤ 57 := h.2
    have h3 : 65 ≤ c.val.toNat := hcon.1
    omega
  simp [hn]

theorem isDigit_false_of_toLower_dot (c : Char) (h : c.toLower = '.') : c.isDigit = false := by
  by_contra hd
  rw [Bool.not_eq_false] at hd
  rw [toLower_fix_of_isDigit c hd] at h
  subst h
  exact absurd hd (by decide)

theorem parseChars_decomp_some (d dir x y tail : List Char)
    (hd : d ≠ []) (hdall : d.all Char.isDigit = true)
    (hx : x ≠ []) (hxall : x.all Char.isDigit = true)
    (hy : y ≠ []) (hyall : y.all Char.isDigit = true)
    (hdir : dir.map Char.toLower = incomingChars ∨ dir.map Char.toLower = outgoingChars)
    (htail : tail.map Char.toLower = dotJson ∨ tail.map Char.toLower = dotJsonNl) :
    parseChars (d ++ '_' :: (dir ++ '_' :: (x ++ '_' :: (y ++ tail))))
      = some ⟨String.mk d, String.mk (dir.map Char.toLower), String.mk x, String.mk y⟩ := by
  have hdl : dir.length = 8 := by
    cases hdir with
    | inl h => have := congrArg List.length h; simpa using this
    | inr h => have := congrArg List.length h; simpa using this
  have hspan1 := span_digits_append d hdall '_' (by decide)
    (dir ++ '_' :: (x ++ '_' :: (y ++ tail)))
  have hspan2 := span_digits_append x hxall '_' (by decide) (y ++ tail)
  have htdot : ∃ t0 trest, tail = t0 :: trest ∧ t0.toLower = '.' := by
    cases tail with
    | nil =>
      exfalso
      rcases htail with hh | hh
      · rw [dotJson] at hh
        exact List.noConfusion hh
      · rw [dotJsonNl] at hh
        exact List.noConfusion hh
    | cons t0 trest =>
      refine ⟨t0, trest, rfl, ?_⟩
      rcases htail with hh | hh
      · rw [List.map_cons, dotJson] at hh
        injection hh
      · rw [List.map_cons, dotJsonNl] at hh
        injection hh
  obtain ⟨t0, trest, htrest, ht0⟩ := htdot
  have hspan3 : (y ++ tail).takeWhile Char.isDigit = y ∧
      (y ++ tail).dropWhile Char.isDigit = tail := by
    rw [htrest]
    exact span_digits_append y hyall t0 (isDigit_false_of_toLower_dot t0 ht0) trest
  have htake : (dir ++ '_' :: (x ++ '_' :: (y ++ tail))).take 8 = dir := by
    rw [← hdl]
    exact List.take_left _ _
  have hdrop : (dir ++ '_' :: (x ++ '_' :: (y ++ tail))).drop 8
      = '_' :: (x ++ '_' :: (y ++ tail)) := by
    rw [← hdl]
    exact List.drop_left _ _
  have hde : d.isEmpty = false := by simpa [List.isEmpty_iff] using hd
  have hxe : x.isEmpty = false := by simpa [List.isEmpty_iff] using hx
  have hye : y.isEmpty = false := by simpa [List.isEmpty_iff] using hy
  simp only [parseChars, hspan1.1, hspan1.2, hspan2.1, hspan2.2, hspan3.1, hspan3.2,
    htake, hdrop]
  simp [hde, hxe, hye, hdir, htail]

/-- A name admitting the claimed decomposition (exact `.json` tail) ends
in the character `n`. -/
theorem specDecomp_dotJson_last (name : String) (p : ParsedFilename)
    (h : SpecDecompAt dotJson name p) : name.data.reverse.head? = some 'n' := by
  obtain ⟨d, dir, x, y, hl, -⟩ := h
  have hassoc : d ++ '_' :: (dir ++ '_' :: (x ++ '_' :: (y ++ dotJson)))
      = (d ++ '_' :: (dir ++ '_' :: (x ++ '_' :: y))) ++ dotJson := by simp
  rw [hassoc] at hl
  have h2 := congrArg (fun l : List Char => l.reverse.head?) hl
  simp only [List.reverse_append] at h2
  rw [show dotJson.reverse = ['n', 'o', 's', 'j', '.'] from rfl] at h2
  simp only [List.cons_append, List.head?_cons] at h2
  exact h2

/-- Claim C4 (counterexample): `re.IGNORECASE` applies to the `.json`
literal of `FILENAME_RE` and `$` also matches just before one trailing
newline, so `parse_filename` accepts both `123_incoming_0_0.JSON` and
`123_incoming_0_0.json\n` — names that do not match the claimed anchored
pattern ending exactly in `.json`. -/
theorem c4_counterexample :
    parse_filename "123_incoming_0_0.JSON" = some ⟨"123", "incoming", "0", "0"⟩ ∧
    (¬ ∃ p, SpecDecompAt dotJson "123_incoming_0_0.JSON" p) ∧
    parse_filename "123_incoming_0_0.json\n" = some ⟨"123", "incoming", "0", "0"⟩ ∧
    (¬ ∃ p, SpecDecompAt dotJson "123_incoming_0_0.json\n" p) := by
  refine ⟨by decide, ?_, by decide, ?_⟩
  · rintro ⟨p, hp⟩
    have h := specDecomp_dotJson_last _ _ hp
    exact absurd h (by decide)
  · rintro ⟨p, hp⟩
    have h := specDecomp_dotJson_last _ _ hp
    exact absurd h (by decide)

/-- Claim C4 (amended): for names of ASCII characters (where the model is
exact; Python `\d` additionally accepts non-ASCII Unicode decimal
digits), `parse_filename` returns a parse exactly when the whole name,
anchored at both ends, is digits⁺ `_` (`incoming`|`outgoing`,
case-insensitive) `_` digits⁺ `_` digits⁺, then `.json` matched
*case-insensitively* (`re.IGNORECASE` covers the suffix literal too),
optionally followed by a single trailing newline (Python `$` matches
before one final `\n`); on match the four captures are returned
unchanged except the direction, which is case-folded to lower case
(numeric captures stay strings, with leading zeros preserved); on any
non-match it returns `none`, never a partial parse. -/
theorem c4_parse_filename (name : String) (p : ParsedFilename)
    (hascii : ∀ c ∈ name.data, c.toNat < 128) :
    parse_filename name = some p ↔
      ∃ tail, (tail.map Char.toLower = dotJson ∨ tail.map Char.toLower = dotJsonNl) ∧
        SpecDecompAt tail name p := by
  constructor
  · intro h
    obtain ⟨d, dir, x, y, tail, hl, hd, hdall, hx, hxall, hy, hyall, hdir, htail, hp⟩ :=
      parseChars_some_decomp name.data p h
    exact ⟨tail, htail, d, dir, x, y, hl, hd, hdall, hx, hxall, hy, hyall, hdir, hp⟩
  · intro h
    obtain ⟨tail, htail, d, dir, x, y, hl, hd, hdall, hx, hxall, hy, hyall, hdir, hp⟩ := h
    rw [parse_filename, hl, hp]
    exact parseChars_decomp_some d dir x y tail hd hdall hx hxall hy hyall hdir htail

/-- Witness for C4: the amended equivalence at a concrete ASCII name with
mixed-case direction and suffix, the ASCII hypothesis discharged by
computation. -/
theorem c4_witness :
    ∃ tail, (tail.map Char.toLower = dotJson ∨ tail.map Char.toLower = dotJsonNl) ∧
      SpecDecompAt tail "123_InComing_4_5.JsOn" ⟨"123", "incoming", "4", "5"⟩ :=
  (c4_parse_filename "123_InComing_4_5.JsOn" ⟨"123", "incoming", "4", "5"⟩
    (by decide)).mp (by decide)

/-! ## Claim C2: slot collisions -/

theorem stringDataInj {a b : String} (h : a.data = b.data) : a = b := by
  cases a; cases b; exact congrArg String.mk h

theorem parse_filename_shape (name : String) (p : ParsedFilename)
    (h : parse_filename name = some p) : ParsedShape p := by
  obtain ⟨d, dir, x, y, tail, hl, hd, hdall, hx, hxall, hy, hyall, hdir, htail, hp⟩ :=
    parseChars_some_decomp name.data p h
  subst hp
  refine ⟨hd, hdall, ?_, hx, hxall, hy, hyall⟩
  cases hdir with
  | inl hh =>
    left
    show String.mk (dir.map Char.toLower) = "incoming"
    rw [hh]; rfl
  | inr hh =>
    right
    show String.mk (dir.map Char.toLower) = "outgoing"
    rw [hh]; rfl

theorem digits_underscore_inj {d1 d2 A B : List Char}
    (h1 : d1.all Char.isDigit = true) (h2 : d2.all Char.isDigit = true)
    (h : d1 ++ '_' :: A = d2 ++ '_' :: B) : d1 = d2 ∧ A = B := by
  have t1 := span_digits_append d1 h1 '_' (by decide) A
  have t2 := span_digits_append d2 h2 '_' (by decide) B
  have hd : d1 = d2 := by rw [← t1.1, ← t2.1, h]
  have hr : ('_' :: A : List Char) = '_' :: B := by rw [← t1.2, ← t2.2, h]
  refine ⟨hd, ?_⟩
  injection hr

theorem string_data_append (a b : String) : (a ++ b).data = a.data ++ b.data := by
  cases a; cases b; rfl

theorem slot_key_data (p : ParsedFilename) :
    (slot_key p).data = p.device.data
      ++ '_' :: (p.direction.data ++ '_' :: (p.x.data ++ '_' :: p.y.data)) := by
  simp [slot_key, string_data_append]

theorem slot_key_inj (p q : ParsedFilename) (hp : ParsedShape p) (hq : ParsedShape q)
    (h : slot_key p = slot_key q) : p = q := by
  obtain ⟨hpd, hpdall, hpdir, hpx, hpxall, hpy, hpyall⟩ := hp
  obtain ⟨hqd, hqdall, hqdir, hqx, hqxall, hqy, hqyall⟩ := hq
  have hdata := congrArg String.data h
  rw [slot_key_data, slot_key_data] at hdata
  obtain ⟨hdev, hrest⟩ := digits_underscore_inj hpdall hqdall hdata
  have hxy : p.direction.data = q.direction.data
      ∧ p.x.data ++ '_' :: p.y.data = q.x.data ++ '_' :: q.y.data := by
    rcases hpdir with hpi | hpi <;> rcases hqdir with hqi | hqi <;>
      rw [hpi, hqi] at hrest ⊢ <;> simp_all
  obtain ⟨hxx, hyy⟩ := digits_underscore_inj hpxall hqxall hxy.2
  have e1 := stringDataInj hdev
  have e2 := stringDataInj hxy.1
  have e3 := stringDataInj hxx
  have e4 := stringDataInj hyy
  cases p; cases q
  simp only at e1 e2 e3 e4
  rw [e1, e2, e3, e4]

theorem parsed_mem_iff (files : List RawFile) (f : RawFile) (p0 : ParsedFilename) :
    (f, p0) ∈ (pass1 files).parsed ↔
      f ∈ (pass1 files).valid ∧ parse_filename f.name = some p0 := by
  rw [pass1_parsed, pass1_valid]
  constructor
  · intro h
    obtain ⟨g, hg, hmap⟩ := List.mem_filterMap.mp h
    by_cases hv : isValidFile g
    · rw [if_pos hv] at hmap
      obtain ⟨q, hq, hpair⟩ := Option.map_eq_some'.mp hmap
      have hgf : g = f := congrArg Prod.fst hpair
      have hqp : q = p0 := congrArg Prod.snd hpair
      subst hgf; subst hqp
      exact ⟨List.mem_filter.mpr ⟨hg, hv⟩, hq⟩
    · rw [if_neg hv] at hmap
      exact absurd hmap (by simp)
  · rintro ⟨hfv, hparse⟩
    obtain ⟨hf, hv⟩ := List.mem_filter.mp hfv
    exact List.mem_filterMap.mpr ⟨f, hf, by rw [if_pos hv, hparse]; rfl⟩

/-- Claim C2: slot grouping runs only over files whose name parsed and
that passed JSON and structural validation, keyed by the normalized slot
(device, lower-cased direction, x, y — numeric captures compared as exact
strings: the string key is injective on parse results, so grouping by the
key is grouping by the normalized tuple); the groups are exactly the
same-slot classes, each appearing once; every group with more than one
member yields exactly one error listing all member names, and
`slot_collisions` increments by (group size − 1) per group.  In
particular two names differing only in the case of the direction token
parse to the same normalized tuple and collide. -/
theorem c2_slot_collisions (rawDirName : String) (rawListing : List RawFile)
    (output : Option OutputDir) (del : Bool) :
    (∀ f p0, ((f, p0) ∈ (pass1 (jsonFilesOf rawListing)).parsed ↔
        (f ∈ (pass1 (jsonFilesOf rawListing)).valid ∧ parse_filename f.name = some p0))) ∧
    (slotGroups (pass1 (jsonFilesOf rawListing)).parsed
      = (groupBy (fun pr : RawFile × ParsedFilename => pr.2)
          (pass1 (jsonFilesOf rawListing)).parsed).map
          (fun g => (slot_key g.1, g.2.map Prod.fst))) ∧
    (∀ g ∈ groupBy (fun pr : RawFile × ParsedFilename => pr.2)
        (pass1 (jsonFilesOf rawListing)).parsed,
      g.2 = (pass1 (jsonFilesOf rawListing)).parsed.filter
        (fun pr => decide (pr.2 = g.1)) ∧ g.2 ≠ []) ∧
    ((groupBy (fun pr : RawFile × ParsedFilename => pr.2)
        (pass1 (jsonFilesOf rawListing)).parsed).map Prod.fst).Nodup ∧
    (∃ pre, (validate_raw rawDirName rawListing output del).errors
      = pre ++ ((groupBy (fun pr : RawFile × ParsedFilename => pr.2)
            (pass1 (jsonFilesOf rawListing)).parsed).filter
            (fun g => decide (1 < g.2.length))).map
            (fun g => slotCollisionError (slot_key g.1, g.2.map Prod.fst))) ∧
    (validate_raw rawDirName rawListing output del).stats.slot_collisions
      = ((groupBy (fun pr : RawFile × ParsedFilename => pr.2)
          (pass1 (jsonFilesOf rawListing)).parsed).map
          (fun g => g.2.length - 1)).sum := by
  have hshape : ∀ a ∈ (pass1 (jsonFilesOf rawListing)).parsed, ParsedShape a.2 := by
    intro a ha
    obtain ⟨f, p0⟩ := a
    exact parse_filename_shape f.name p0
      ((parsed_mem_iff (jsonFilesOf rawListing) f p0).mp ha).2
  have hinj : ∀ a ∈ (pass1 (jsonFilesOf rawListing)).parsed,
      ∀ b ∈ (pass1 (jsonFilesOf rawListing)).parsed,
      slot_key a.2 = slot_key b.2 → a.2 = b.2 := by
    intro a ha b hb hk
    exact slot_key_inj a.2 b.2 (hshape a ha) (hshape b hb) hk
  have hcomp : groupBy (fun pr : RawFile × ParsedFilename => slot_key pr.2)
        (pass1 (jsonFilesOf rawListing)).parsed
      = (groupBy (fun pr : RawFile × ParsedFilename => pr.2)
          (pass1 (jsonFilesOf rawListing)).parsed).map
          (fun g => (slot_key g.1, g.2)) :=
    groupBy_comp_key (fun pr : RawFile × ParsedFilename => pr.2) slot_key _ hinj
  have hb : slotGroups (pass1 (jsonFilesOf rawListing)).parsed
      = (groupBy (fun pr : RawFile × ParsedFilename => pr.2)
          (pass1 (jsonFilesOf rawListing)).parsed).map
          (fun g => (slot_key g.1, g.2.map Prod.fst)) := by
    rw [slotGroups, hcomp, List.map_map]
    rfl
  refine ⟨fun f p0 => parsed_mem_iff _ f p0, hb, groupBy_sound _ _,
    groupBy_keys_nodup _ _, ?_, ?_⟩
  · simp only [validate_raw]
    split
    next h =>
      have hnil : jsonFilesOf rawListing = [] := by simpa [List.isEmpty_iff] using h
      refine ⟨[], ?_⟩
      simp [hnil, pass1, groupBy]
    next h =>
      refine ⟨(pass1 (jsonFilesOf rawListing)).errors
        ++ clusterErrors hashDupeError (groupBy (fun f : RawFile => file_hash f.content)
            (pass1 (jsonFilesOf rawListing)).valid), ?_⟩
      rw [hb, clusterErrors_eq slotCollisionError, List.filter_map, List.map_map]
      show _ ++ _ ++ _ = _ ++ _ ++ _
      rw [List.append_assoc, List.append_assoc]
      have e1 : ((fun g : String × List RawFile => decide (1 < g.2.length)) ∘
          (fun g : ParsedFilename × List (RawFile × ParsedFilename) =>
            (slot_key g.1, g.2.map Prod.fst)))
          = (fun g : ParsedFilename × List (RawFile × ParsedFilename) =>
              decide (1 < g.2.length)) := by
        funext g
        simp [Function.comp_apply, List.length_map]
      rw [e1]
      have e2 : (slotCollisionError ∘
          (fun g : ParsedFilename × List (RawFile × ParsedFilename) =>
            (slot_key g.1, g.2.map Prod.fst)))
          = (fun g : ParsedFilename × List (RawFile × ParsedFilename) =>
              slotCollisionError (slot_key g.1, g.2.map Prod.fst)) := by
        funext g
        simp [Function.comp_apply]
      rw [e2]
  · simp only [validate_raw]
    split
    next h =>
      have hnil : jsonFilesOf rawListing = [] := by simpa [List.isEmpty_iff] using h
      simp [hnil, pass1, groupBy]
    next h =>
      show clusterExtra _ = _
      rw [hb, clusterExtra_eq, List.map_map]
      congr 1
      apply List.map_congr_left
      intro g _
      simp [Function.comp]

end TomTom
